import Mathlib

/-!
Verification development for the post-analysis pipeline in
`analyze_posts.py`: a shallow embedding of its regex-driven extractors
(model, homework, failure modes, outcome, observations), the enrichment
step, the statistics aggregation fold and the summary computations,
together with theorems about them.

The Python code drives everything through `re.search` / `re.findall` on a
small regex fragment (literal characters, character classes, `.`/`.*`,
greedy `*`, `+`, `?`, `{lo,hi}`, non-capturing and capturing groups,
two-way alternation, `^` under MULTILINE, the IGNORECASE flag).  The
fragment is embedded below as `REx` with a complete backtracking matcher
`mSeq` that follows Python's preference order (greedy, leftmost
alternative first).  `mSeq` is structurally recursive on an explicit step
budget; every step strictly decreases `input length + pattern size`, and
every entry point passes a budget strictly larger than that measure, so
the budget is never exhausted.  Fallible Python code (exceptions) is
modelled with `Option` / `Except`.
-/

/-- Regex fragment used by `analyze_posts.py`.  `cls pos cs` is a character
class (`pos = false` for a negated class `[^…]`); `starCls`/`repCls` are
greedy `*` and `{lo,hi}` over a class; `alt2 a b` is `(?:a|b)`;
`optSeq a` is `(?:a)?`; `capStart i`/`capEnd` bracket capture group
`i + 1`; `bol` is `^` under `re.MULTILINE`.  A bare `.` is
`cls false ['\n']` and `.*` is `starCls false ['\n']`, matching Python's
dot (anything but a newline when DOTALL is off). -/
inductive REx where
  | lit : Char → REx
  | cls : Bool → List Char → REx
  | starCls : Bool → List Char → REx
  | repCls : Bool → List Char → Nat → Nat → REx
  | alt2 : List REx → List REx → REx
  | optSeq : List REx → REx
  | capStart : Nat → REx
  | capEnd : REx
  | bol : REx

mutual

/-- Size of one regex token; used only for the matcher's step budget. -/
def reSize : REx → Nat
  | .alt2 a b => 1 + reListSize a + reListSize b
  | .optSeq a => 1 + reListSize a
  | .repCls _ _ _ hi => 1 + hi
  | _ => 1

/-- Size of a token list. -/
def reListSize : List REx → Nat
  | [] => 0
  | r :: rs => reSize r + reListSize rs

end

/-- Captured groups of a match: the regexes in the source use at most two
capture groups, so two slots suffice.  `none` is an unmatched group
(Python's `''` entry in a `findall` tuple). -/
abbrev Caps := Option (List Char) × Option (List Char)

/-- Store a closed capture into its slot. -/
def setSlot (caps : Caps) (i : Nat) (v : List Char) : Caps :=
  if i == 0 then (some v, caps.2) else (caps.1, some v)

/-- Append a consumed character to the open capture accumulator (kept in
reverse order). -/
def pushOpen (acc : Option (Nat × List Char)) (x : Char) : Option (Nat × List Char) :=
  acc.map (fun p => (p.1, x :: p.2))

/-- Character comparison, case-insensitively when `ci` (Python
`re.IGNORECASE`). -/
def chEq (ci : Bool) (x c : Char) : Bool :=
  if ci then x.toLower == c.toLower else x == c

/-- Class membership test: `pos = true` for `[…]`, `false` for `[^…]`;
case-insensitive when `ci`. -/
def memCls (ci : Bool) (pos : Bool) (cs : List Char) (x : Char) : Bool :=
  let x' := if ci then x.toLower else x
  if pos then cs.contains x' else !(cs.contains x')

/-- Backtracking matcher at the current position.  Arguments: step budget,
remaining tokens, remaining input, whether the position is at a line start
(for `^`), the open capture accumulator, the closed captures.  Returns the
number of characters consumed and the captures of the preferred match
(greedy quantifiers and the left alternative are tried first, as in
Python), or `none` when nothing matches here. -/
def mSeq (ci : Bool) : Nat → List REx → List Char → Bool → Option (Nat × List Char) → Caps →
    Option (Nat × Caps)
  | 0, _, _, _, _, _ => none
  | _ + 1, [], _, _, _, caps => some (0, caps)
  | f + 1, .lit c :: ps, x :: xs, _, acc, caps =>
      if chEq ci x c then
        (mSeq ci f ps xs (x == '\n') (pushOpen acc x) caps).map (fun r => (r.1 + 1, r.2))
      else none
  | _ + 1, .lit _ :: _, [], _, _, _ => none
  | f + 1, .cls pos cs :: ps, x :: xs, _, acc, caps =>
      if memCls ci pos cs x then
        (mSeq ci f ps xs (x == '\n') (pushOpen acc x) caps).map (fun r => (r.1 + 1, r.2))
      else none
  | _ + 1, .cls _ _ :: _, [], _, _, _ => none
  | f + 1, .starCls pos cs :: ps, xs, nl, acc, caps =>
      (match xs with
       | x :: xs' =>
           if memCls ci pos cs x then
             (mSeq ci f (.starCls pos cs :: ps) xs' (x == '\n') (pushOpen acc x) caps).map
               (fun r => (r.1 + 1, r.2))
           else none
       | [] => none) <|>
      mSeq ci f ps xs nl acc caps
  | f + 1, .repCls pos cs lo hi :: ps, xs, nl, acc, caps =>
      if hi == 0 then (if lo == 0 then mSeq ci f ps xs nl acc caps else none)
      else
        (match xs with
         | x :: xs' =>
             if memCls ci pos cs x then
               (mSeq ci f (.repCls pos cs (lo - 1) (hi - 1) :: ps) xs' (x == '\n')
                   (pushOpen acc x) caps).map (fun r => (r.1 + 1, r.2))
             else none
         | [] => none) <|>
        (if lo == 0 then mSeq ci f ps xs nl acc caps else none)
  | f + 1, .alt2 a b :: ps, xs, nl, acc, caps =>
      mSeq ci f (a ++ ps) xs nl acc caps <|> mSeq ci f (b ++ ps) xs nl acc caps
  | f + 1, .optSeq a :: ps, xs, nl, acc, caps =>
      mSeq ci f (a ++ ps) xs nl acc caps <|> mSeq ci f ps xs nl acc caps
  | f + 1, .capStart i :: ps, xs, nl, _, caps => mSeq ci f ps xs nl (some (i, [])) caps
  | f + 1, .capEnd :: ps, xs, nl, acc, caps =>
      match acc with
      | some (i, l) => mSeq ci f ps xs nl none (setSlot caps i l.reverse)
      | none => mSeq ci f ps xs nl none caps
  | f + 1, .bol :: ps, xs, nl, acc, caps => if nl then mSeq ci f ps xs nl acc caps else none

/-- Try to match `ps` at the start of `s` with a sufficient step budget. -/
def reRun (ci : Bool) (ps : List REx) (s : List Char) (nl : Bool) : Option (Nat × Caps) :=
  mSeq ci (s.length + reListSize ps + 1) ps s nl none (none, none)

/-- Python `re.search` as a boolean: try the pattern at every position,
left to right.  `nl` tracks whether the current position is at a line
start. -/
def research (ci : Bool) (ps : List REx) : List Char → Bool → Bool
  | [], nl => (reRun ci ps [] nl).isSome
  | x :: xs, nl => (reRun ci ps (x :: xs) nl).isSome || research ci ps xs (x == '\n')

/-- Whether `re.search(pattern, s, flags)` finds a match. -/
def reSearch (ci : Bool) (ps : List REx) (s : String) : Bool :=
  research ci ps s.toList true

/-- Line-start flag for the position right after the consumed prefix. -/
def updNL (consumed : List Char) (nl : Bool) : Bool :=
  match consumed.getLast? with
  | some c => c == '\n'
  | none => nl

/-- Python `re.findall`: non-overlapping matches scanned left to right,
each reported as its tuple of capture groups; after an empty match the
scan advances one character (as in Python ≥ 3.7).  The budget bounds the
number of scan steps, each of which consumes at least one character. -/
def findallAux (ci : Bool) (ps : List REx) : Nat → List Char → Bool → List Caps
  | 0, _, _ => []
  | _ + 1, [], nl =>
      match reRun ci ps [] nl with
      | some (_, caps) => [caps]
      | none => []
  | f + 1, x :: xs, nl =>
      match reRun ci ps (x :: xs) nl with
      | some (n, caps) =>
          if n == 0 then caps :: findallAux ci ps f xs (x == '\n')
          else caps :: findallAux ci ps f ((x :: xs).drop n) (updNL ((x :: xs).take n) nl)
      | none => findallAux ci ps f xs (x == '\n')

/-- `re.findall(pattern, s, flags)`. -/
def findall (ci : Bool) (ps : List REx) (s : String) : List Caps :=
  findallAux ci ps (s.length + 1) s.toList true

/-- Python `str.lower()` (character-wise lowering; the posts under
analysis are ASCII, where this agrees with CPython). -/
def pyLower (s : String) : String := (s.toList.map Char.toLower).asString

/-- Literal characters of a string as regex tokens. -/
def lits (s : String) : List REx := s.toList.map REx.lit

/-- Python's `\s` character set. -/
def wsChars : List Char := [' ', '\t', '\n', '\r', '\x0b', '\x0c']

/-- The class `[\s\-]`. -/
def wsDash : List Char := wsChars ++ ['-']

/-- The token `[\s\-]*`, ubiquitous in the model patterns. -/
def sd : REx := .starCls true wsDash

/-- The token `\s*`. -/
def wsS : REx := .starCls true wsChars

/-- The tokens of `\s+`. -/
def wsP : List REx := [.cls true wsChars, .starCls true wsChars]

/-- The token `.*`. -/
def dotStar : REx := .starCls false ['\n']

/-- A one-token optional `x?`. -/
def opt1 (r : REx) : REx := .optSeq [r]

/-- Digit characters (`\d`). -/
def digitChars : List Char := ['0', '1', '2', '3', '4', '5', '6', '7', '8', '9']

/-- A literal-segment keyword with one `.*` between the segments
(`a.*b`). -/
def kw2 (a b : String) : List REx := lits a ++ [dotStar] ++ lits b

/-- A literal-segment keyword with two `.*` (`a.*b.*c`). -/
def kw3 (a b c : String) : List REx :=
  lits a ++ [dotStar] ++ lits b ++ [dotStar] ++ lits c

/-- The ordered `(pattern, label)` table of `extract_model`, transcribed
rule by rule from the source (most specific first; evaluated with
`re.IGNORECASE`). -/
def model_patterns : List (List REx × String) :=
  [ (lits "chatgpt" ++ [sd] ++ lits "5.1" ++ [sd] ++ lits "pro", "ChatGPT 5.1 Pro"),
    (lits "chatgpt" ++ [sd] ++ lits "5.1" ++ [sd, .optSeq (lits "extended" ++ [sd])] ++
      lits "thinking", "ChatGPT 5.1 Thinking"),
    (lits "chatgpt" ++ [sd] ++ lits "5.1" ++ [sd] ++ lits "standard", "ChatGPT 5.1"),
    (lits "chatgpt" ++ [sd] ++ lits "5.1", "ChatGPT 5.1"),
    (lits "gpt" ++ [sd] ++ lits "5.1" ++ [sd] ++ lits "pro", "GPT 5.1 Pro"),
    (lits "gpt" ++ [sd] ++ lits "5.1" ++ [sd] ++ lits "thinking", "GPT 5.1 Thinking"),
    (lits "gpt" ++ [sd] ++ lits "5.1", "GPT 5.1"),
    (lits "gpt" ++ [sd] ++ lits "5" ++ [sd] ++ lits "pro", "GPT 5 Pro"),
    (lits "gpt" ++ [sd] ++ lits "5" ++ [sd] ++ lits "thinking", "GPT 5 Thinking"),
    (lits "chatgpt" ++ [sd] ++ lits "5", "ChatGPT 5"),
    (lits "gpt" ++ [sd] ++ lits "5", "GPT 5"),
    (lits "chatgpt", "ChatGPT"),
    (lits "codex" ++ [sd] ++ lits "5.1" ++ [sd] ++ lits "high", "Codex 5.1 High"),
    (lits "codex" ++ [sd] ++ lits "5.1", "Codex 5.1"),
    (lits "codex", "Codex"),
    (lits "claude" ++ [sd] ++ lits "code" ++ [sd, .optSeq (lits "with" ++ [sd])] ++
      lits "opus" ++ [sd] ++ lits "4.5", "Claude Code (Opus 4.5)"),
    (lits "claude" ++ [sd] ++ lits "opus" ++ [sd] ++ lits "4.5" ++
      [sd, .optSeq (lits "extended" ++ [sd])] ++ lits "thinking", "Claude Opus 4.5 Thinking"),
    (lits "opus" ++ [sd] ++ lits "4.5" ++ [sd, .optSeq (lits "extended" ++ [sd])] ++
      lits "thinking", "Claude Opus 4.5 Thinking"),
    (lits "claude" ++ [sd] ++ lits "opus" ++ [sd] ++ lits "4.5", "Claude Opus 4.5"),
    (lits "opus" ++ [sd] ++ lits "4.5", "Claude Opus 4.5"),
    (lits "claude" ++ [sd] ++ lits "sonnet" ++ [sd] ++ lits "4.5", "Claude Sonnet 4.5"),
    (lits "sonnet" ++ [sd] ++ lits "4.5", "Claude Sonnet 4.5"),
    (lits "haiku" ++ [sd] ++ lits "4.5", "Claude Haiku 4.5"),
    (lits "claude" ++ [sd] ++ lits "code", "Claude Code"),
    (lits "claude", "Claude"),
    (lits "gemini" ++ [sd, .optSeq (lits "thinking" ++ [sd] ++ lits "with" ++ [sd])] ++
      lits "pro" ++ [sd] ++ lits "3", "Gemini Pro 3"),
    (lits "gemini" ++ [sd] ++ lits "3" ++ [sd] ++ lits "pro", "Gemini Pro 3"),
    (lits "gemini" ++ [sd] ++ lits "pro" ++ [sd] ++ lits "2.5", "Gemini Pro 2.5"),
    (lits "gemini" ++ [sd] ++ lits "2.5" ++ [sd] ++ lits "pro", "Gemini Pro 2.5"),
    (lits "google" ++ [sd] ++ lits "ai" ++ [sd] ++ lits "studio" ++ [dotStar] ++
      lits "gemini" ++ [sd] ++ lits "2.5" ++ [sd] ++ lits "pro", "Gemini Pro 2.5"),
    (lits "gemini" ++ [sd] ++ lits "pro", "Gemini Pro"),
    (lits "gemini" ++ [sd, .optSeq (lits "in" ++ [sd])] ++ lits "coll" ++
      [opt1 (.lit 'a')] ++ lits "b", "Gemini (Colab)"),
    (lits "gemini", "Gemini"),
    (lits "deepseek" ++ [sd] ++ lits "v3.2", "DeepSeek V3.2"),
    (lits "deep" ++ [sd] ++ lits "seek" ++ [sd] ++ lits "v3.2", "DeepSeek V3.2"),
    (lits "deepseek" ++ [sd] ++ lits "r1", "DeepSeek R1"),
    (lits "deep" ++ [sd] ++ lits "seek", "DeepSeek"),
    (lits "deepseek", "DeepSeek"),
    (lits "cursor" ++ [sd, .optSeq (lits "auto" ++ [sd])] ++ lits "agent", "Cursor Agent"),
    (lits "cursor" ++ [sd] ++ lits "composer", "Cursor Composer"),
    (lits "cursor" ++ [sd, opt1 (.lit '(')] ++ lits "opus" ++ [sd] ++ lits "4.5" ++
      [opt1 (.lit ')')], "Cursor (Opus 4.5)"),
    (lits "cursor", "Cursor"),
    (lits "windsurf" ++ [sd] ++ lits "swe" ++ [sd] ++ lits "1", "Windsurf SWE-1"),
    (lits "windsurf", "Windsurf"),
    (lits "qwen3" ++ [sd] ++ lits "max", "Qwen3-Max"),
    (lits "qwen" ++ [sd] ++ lits "3" ++ [sd] ++ lits "max", "Qwen3-Max"),
    (lits "qwen", "Qwen"),
    (lits "mistral" ++
      [sd, .optSeq (lits "ai" ++ [opt1 (.lit '\''), opt1 (.lit 's'), sd])] ++
      lits "le" ++ [sd] ++ lits "chat", "Mistral Le Chat"),
    (lits "mistral" ++ [sd] ++ lits "ai", "Mistral"),
    (lits "mistral", "Mistral"),
    (lits "grok" ++ [sd] ++ lits "4.1", "Grok 4.1"),
    (lits "grok" ++ [sd, .optSeq (lits "with" ++ [sd])] ++ lits "fast" ++ [sd] ++
      lits "mode", "Grok (Fast Mode)"),
    (lits "gork", "Grok"),
    (lits "grok", "Grok"),
    (lits "kimi" ++ [sd] ++ lits "k2", "Kimi K2"),
    (lits "kimi" ++ [sd] ++ lits "1.5", "Kimi 1.5"),
    (lits "kimi", "Kimi"),
    (lits "perplexity" ++ [sd] ++ lits "pro", "Perplexity Pro"),
    (lits "perplexity", "Perplexity"),
    (lits "llama" ++ [sd] ++ lits "4" ++ [sd] ++ lits "maverick", "Llama 4 Maverick"),
    (lits "llama", "Llama"),
    (lits "seed" ++ [sd] ++ lits "1.6", "Seed 1.6 (ByteDance)"),
    (lits "aider", "Aider"),
    (lits "cline", "Cline"),
    (lits "replit", "Replit") ]

/-- `extract_model(title, content)`: the first pattern of
`model_patterns` (in list order) that `re.search` finds in
`f"{title} {content}"` wins; `"Unknown"` when none matches.
`re.IGNORECASE` is the `ci = true` flag of the matcher. -/
def extract_model (title content : String) : String :=
  let text := title ++ " " ++ content
  match model_patterns.find? (fun pr => reSearch true pr.1 text) with
  | some pr => pr.2
  | none => "Unknown"

/-- The regex `hw[\s\-_]*0*(\d+)|homework[\s\-_]*0*(\d+)` of
`extract_homework` (two capture groups, one per alternative). -/
def hwRegex : List REx :=
  [.alt2
    (lits "hw" ++ [.starCls true (wsChars ++ ['-', '_']), .starCls true ['0'],
      .capStart 0, .cls true digitChars, .starCls true digitChars, .capEnd])
    (lits "homework" ++ [.starCls true (wsChars ++ ['-', '_']), .starCls true ['0'],
      .capStart 1, .cls true digitChars, .starCls true digitChars, .capEnd])]

/-- Python `int` on a nonempty digit string. -/
def natOfDigits (l : List Char) : Nat :=
  l.foldl (fun n c => n * 10 + (c.toNat - 48)) 0

/-- Python `match[0] or match[1]` on a two-group `findall` tuple. -/
def hwNum (m : Caps) : List Char :=
  if (m.1.getD []).isEmpty then m.2.getD [] else m.1.getD []

/-- The match loop shared by both halves of `extract_homework`: take the
first `findall` tuple whose `match[0] or match[1]` is nonempty and format
it as `f"HW{int(hw_num)}"`. -/
def hwFromMatches : List Caps → Option String
  | [] => none
  | m :: rest =>
      if (hwNum m).isEmpty then hwFromMatches rest
      else some ("HW" ++ toString (natOfDigits (hwNum m)))

/-- `extract_homework(title, content)`: scan the title alone first; only
when that yields nothing scan the content. -/
def extract_homework (title content : String) : String :=
  match hwFromMatches (findall true hwRegex title) with
  | some r => r
  | none =>
      match hwFromMatches (findall true hwRegex content) with
      | some r => r
      | none => "Unknown"

/-- The keyword-pattern table of `FAILURE_PATTERNS`, id by id and keyword
by keyword from the source (the `label`/description fields, which play no
role in matching, are kept separately in `FAILURE_LABELS`). -/
def FAILURE_PATTERNS : List (String × List (List REx)) :=
  [ ("hallucination",
      [lits "hallucinate", lits "hallucination", lits "hallucinated", lits "made up",
       lits "fabricate", lits "invented", lits "imagined", kw3 "claims" "not" "true",
       kw2 "confidently" "wrong", lits "described patterns that did not match",
       lits "hallucinations"]),
    ("context_loss",
      [lits "lost context", lits "forgot", lits "context window", lits "lost track",
       lits "didn't remember", lits "context limit", lits "large context",
       lits "long context", kw2 "context" "struggle"]),
    ("wrong_algorithm",
      [lits "wrong algorithm", lits "misunderstood", lits "wrong approach",
       lits "misinterpreted", lits "missed the point", lits "completely wrong",
       kw2 "fundamentally" "wrong", kw3 "proposed" "different" "solution",
       kw2 "instead" "proposed"]),
    ("api_confusion",
      [lits "wrong api", lits "api confusion", lits "wrong function",
       lits "wrong library", lits "imported function", kw2 "couldn't find" "function",
       lits "niche function", kw2 "unfamiliar" "package", kw2 "didn't use" "helper"]),
    ("dimension_errors",
      [lits "dimension", lits "shape error", lits "shape mismatch", lits "broadcasting",
       kw2 "tensor" "shape", kw2 "wrong" "dimension", kw2 "RuntimeError" "dimension",
       lits "size mismatch"]),
    ("instruction_violation",
      [lits "didn't follow", kw2 "ignored" "instruction", kw2 "violated" "constraint",
       kw2 "despite" "explicit", kw2 "even though" "asked", lits "failed to follow",
       lits "didn't stick to", kw2 "changed" "unrelated", kw2 "modified" "shouldn't"]),
    ("hyperparameter_tuning",
      [lits "hyperparameter", lits "learning rate", kw2 "couldn't" "tune",
       kw2 "parameter" "tuning", kw2 "trial" "error", lits "grid search",
       kw2 "couldn't find" "parameters", kw2 "parameters" "didn't work"]),
    ("visual_reasoning",
      [kw2 "couldn't" "see", kw2 "visual" "reasoning", kw3 "couldn't" "interpret" "image",
       kw2 "vision" "unreliable", kw3 "couldn't" "read" "graph",
       kw2 "image" "understanding", kw2 "plot" "interpretation", kw2 "visual" "blind"]),
    ("conceptual_gap",
      [kw2 "conceptual" "gap", lits "didn't understand", lits "misconception",
       kw2 "theoretical" "weak", kw2 "conceptual" "error", kw2 "wrong" "intuition",
       kw2 "misunderstand" "concept"]),
    ("debugging_struggles",
      [kw2 "couldn't" "debug", kw2 "stuck" "loop", kw3 "repeated" "same" "error",
       kw2 "couldn't" "fix", kw2 "debugging" "difficult", kw2 "multiple" "tries",
       kw3 "iteration" "still" "wrong", kw2 "couldn't" "recover"]),
    ("verbosity",
      [lits "too verbose", lits "verbose", kw2 "unnecessarily" "long", lits "chatty",
       kw2 "too" "explanation", kw2 "overly" "detailed"]),
    ("overcomplicated",
      [lits "overcomplicate", lits "over-engineer", lits "too complex",
       lits "unnecessarily complex", lits "could have simply", kw2 "simple" "fix",
       lits "overcomplicat"]) ]

/-- The display labels of `FAILURE_PATTERNS` (used by the summary's top
failure-mode computation). -/
def FAILURE_LABELS : List (String × String) :=
  [ ("hallucination", "Hallucination"),
    ("context_loss", "Context Loss"),
    ("wrong_algorithm", "Wrong Algorithm/Approach"),
    ("api_confusion", "API/Library Confusion"),
    ("dimension_errors", "Dimension/Shape Errors"),
    ("instruction_violation", "Instruction Violation"),
    ("hyperparameter_tuning", "Hyperparameter Tuning"),
    ("visual_reasoning", "Visual Reasoning Issues"),
    ("conceptual_gap", "Conceptual Understanding Gap"),
    ("debugging_struggles", "Debugging Struggles"),
    ("verbosity", "Excessive Verbosity"),
    ("overcomplicated", "Overcomplicated Solution") ]

/-- `extract_failure_modes(content)`: iterate the catalog in order and
keep each id whose keyword list has at least one `re.search` hit in the
lowercased content (the inner `break` makes one hit enough). -/
def extract_failure_modes (content : String) : List String :=
  let content_lower := pyLower content
  (FAILURE_PATTERNS.filter
      (fun pr => pr.2.any (fun kw => reSearch false kw content_lower))).map
    (fun pr => pr.1)

/-- The `strong_success` indicator list of `analyze_outcome`. -/
def strong_success : List (List REx) :=
  [lits "one-shot", lits "one shot", lits "oneshot", lits "zero-shot", lits "zero shot",
   lits "one-shotted", lits "correctly solved", lits "perfectly", lits "flawless",
   kw2 "all" "correct", lits "100%", lits "excellent", lits "exceptional",
   lits "impressive", lits "very strong", lits "very well", lits "no issues",
   lits "no errors", kw2 "without" "correction", kw2 "without" "debugging"]

/-- The `partial_indicators` list of `analyze_outcome`. -/
def partial_indicators : List (List REx) :=
  [lits "eventually", kw2 "after" "prompting", kw2 "with" "hint", kw2 "needed" "help",
   kw2 "required" "guidance", kw2 "with" "nudge", kw2 "after" "feedback",
   kw2 "minor" "error", kw2 "small" "mistake", kw2 "mostly" "correct",
   kw2 "almost" "correct", lits "close", lits "nearly"]

/-- The `failure_indicators` list of `analyze_outcome`. -/
def failure_indicators : List (List REx) :=
  [lits "failed", lits "couldn't", lits "unable to", lits "struggled significantly",
   lits "did not work", lits "incorrect", lits "wrong", lits "disappointed",
   lits "poor performance", kw2 "multiple" "error", kw2 "kept" "failing"]

/-- `success_score`: how many distinct strong-success indicators have at
least one match in the lowercased content. -/
def success_score (content : String) : Nat :=
  strong_success.countP (fun ind => reSearch false ind (pyLower content))

/-- `partial_score`: distinct partial indicators matched. -/
def partial_score (content : String) : Nat :=
  partial_indicators.countP (fun ind => reSearch false ind (pyLower content))

/-- `failure_score`: distinct failure indicators matched. -/
def failure_score (content : String) : Nat :=
  failure_indicators.countP (fun ind => reSearch false ind (pyLower content))

/-- `analyze_outcome(content)`: the weighted decision cascade over the
three scores, in the source's order. -/
def analyze_outcome (content : String) : String :=
  if failure_score content > success_score content + 2 then "failed"
  else if success_score content > 0 ∧ partial_score content > success_score content then
    "partial"
  else if success_score content ≥ 2 then "success"
  else if partial_score content > 0 then "partial"
  else if failure_score content > 0 then "failed"
  else "unknown"

/-- Sentence terminators `[.!?]`. -/
def tmChars : List Char := ['.', '!', '?']

/-- Terminators plus newline, `[^.!?\n]`'s class. -/
def tmnChars : List Char := ['.', '!', '?', '\n']

/-- The capture `([^.!?]+[.!?])`. -/
def grpSent : List REx :=
  [.capStart 0, .cls false tmChars, .starCls false tmChars, .cls true tmChars, .capEnd]

/-- The optional capture `([^.!?]*[.!?])?`. -/
def grpSentOpt : REx :=
  .optSeq [.capStart 0, .starCls false tmChars, .cls true tmChars, .capEnd]

/-- The capture `([^.!?\n]+)`. -/
def grpAnn : List REx :=
  [.capStart 0, .cls false tmnChars, .starCls false tmnChars, .capEnd]

/-- The `strength_patterns` table of `extract_key_observations`. -/
def strength_patterns : List (List REx × String) :=
  [ (lits "strength" ++ [opt1 (.cls true ['s']), opt1 (.lit ':'), wsS] ++ grpSent,
      "Strength"),
    (lits "worked well" ++ [opt1 (.lit ':'), wsS] ++ grpSent, "Worked Well"),
    (lits "excelled at" ++ [opt1 (.lit ':'), wsS] ++ grpSent, "Excelled At"),
    (lits "strong at" ++ [opt1 (.lit ':'), wsS] ++ grpSent, "Strong At"),
    (lits "impressive" ++ [opt1 (.cls true ['l', 'y'])] ++ wsP ++ grpSent, "Impressive"),
    (lits "correctly" ++ wsP ++ grpSent, "Correct"),
    (lits "one" ++ [opt1 (.cls true ['-', ' '])] ++ lits "shot" ++
      [.optSeq [.alt2 (lits "ted") (lits "ting")], wsS, grpSentOpt], "One-Shot"),
    (lits "nailed" ++ wsP ++ grpSent, "Nailed"),
    (lits "perfect" ++ [.optSeq (lits "ly")] ++ wsP ++ grpSent, "Perfect") ]

/-- The `weakness_patterns` table. -/
def weakness_patterns : List (List REx × String) :=
  [ (lits "weakness" ++ [opt1 (.cls true ['e', 's']), opt1 (.lit ':'), wsS] ++ grpSent,
      "Weakness"),
    (lits "struggled with" ++ [opt1 (.lit ':'), wsS] ++ grpSent, "Struggled With"),
    (lits "failed to" ++ [opt1 (.lit ':'), wsS] ++ grpSent, "Failed To"),
    (lits "limitation" ++ [opt1 (.cls true ['s']), opt1 (.lit ':'), wsS] ++ grpSent,
      "Limitation"),
    (lits "incorrect" ++ [.optSeq (lits "ly")] ++ wsP ++ grpSent, "Incorrect"),
    (lits "error" ++ [opt1 (.lit ':'), wsS] ++ grpSent, "Error"),
    (lits "bug" ++ [opt1 (.lit ':'), wsS] ++ grpSent, "Bug"),
    (lits "wrong" ++ wsP ++ grpSent, "Wrong"),
    (lits "confused" ++ wsP ++ grpSent, "Confused") ]

/-- The `annotation_patterns` table. -/
def annotation_patterns : List (List REx × String) :=
  [ (lits "[annotation]" ++ [opt1 (.lit ':'), wsS] ++ grpAnn, "Annotation"),
    (lits "comment" ++ [opt1 (.lit ':'), wsS] ++ grpAnn, "Comment"),
    (lits "note" ++ [opt1 (.lit ':'), wsS] ++ grpAnn, "Note"),
    (lits "fix" ++ [.optSeq (lits "ed"), opt1 (.lit ':'), wsS] ++ grpAnn, "Fix"),
    (lits "issue" ++ [opt1 (.lit ':'), wsS] ++ grpAnn, "Issue") ]

/-- Bullet characters `[•●○◦▪▸]`. -/
def bulletChars : List Char := ['•', '●', '○', '◦', '▪', '▸']

/-- Dash characters `[-–—]`. -/
def dashChars : List Char := ['-', '–', '—']

/-- The `bullet_patterns` list (matched with `re.MULTILINE`, no
IGNORECASE). -/
def bullet_patterns : List (List REx) :=
  [ [.cls true bulletChars, wsS, .capStart 0,
      .repCls false ('\n' :: bulletChars) 20 200, .capEnd],
    [.bol, wsS, .cls true dashChars] ++ wsP ++
      [.capStart 0, .repCls false ['\n'] 20 200, .capEnd],
    [.bol, wsS, .cls true digitChars, .starCls true digitChars, .cls true ['.', ')']] ++
      wsP ++ [.capStart 0, .repCls false ['\n'] 20 200, .capEnd] ]

/-- Python whitespace test used by `str.strip()`. -/
def isPyWS (c : Char) : Bool := wsChars.contains c

/-- Python `str.strip()`. -/
def pystrip (l : List Char) : List Char :=
  ((l.dropWhile isPyWS).reverse.dropWhile isPyWS).reverse

/-- One observation record (`{'type': …, 'label': …, 'text': …}`). -/
structure Obs where
  otype : String
  label : String
  text : String
deriving DecidableEq, Repr

/-- Group 1 of a `findall` tuple as a Python string (`''` when the group
did not participate). -/
def group1 (m : Caps) : List Char := m.1.getD []

/-- One strength/weakness/annotation pattern's contribution: the first
`cap` matches, kept when truthy and longer than `minLen` after
stripping, trimmed to 200 characters. -/
def obs_from (cap minLen : Nat) (otype : String) (content : String)
    (pr : List REx × String) : List Obs :=
  ((findall true pr.1 content).take cap).filterMap (fun m =>
    let mt := pystrip (group1 m)
    if (group1 m).isEmpty = false ∧ mt.length > minLen then
      some ⟨otype, pr.2, (mt.take 200).asString⟩
    else none)

/-- The positive word list classifying a bullet as a strength. -/
def strength_words : List String := ["good", "correct", "success", "well", "proper"]

/-- The negative word list classifying a bullet as a weakness. -/
def weakness_words : List String := ["wrong", "error", "fail", "issue", "bug", "incorrect"]

/-- List-prefix test on characters. -/
def isPrefixL : List Char → List Char → Bool
  | [], _ => true
  | _ :: _, [] => false
  | a :: l₁, b :: l₂ => a == b && isPrefixL l₁ l₂

/-- Python's `needle in hay` on strings. -/
def containsSub (needle : List Char) : List Char → Bool
  | [] => needle.isEmpty
  | c :: rest => isPrefixL needle (c :: rest) || containsSub needle rest

/-- One bullet pattern's contribution: the first 5 matches, classified by
the positive/negative word lists (unclassified bullets are dropped). -/
def bullet_obs (content : String) (p : List REx) : List Obs :=
  ((findall false p content).take 5).filterMap (fun m =>
    let text := pystrip (group1 m)
    if strength_words.any (fun w => containsSub w.toList (text.map Char.toLower)) then
      some ⟨"strength", "Observation", (text.take 200).asString⟩
    else if weakness_words.any (fun w => containsSub w.toList (text.map Char.toLower)) then
      some ⟨"weakness", "Observation", (text.take 200).asString⟩
    else none)

/-- All observation candidates in extraction order: strength patterns,
then weakness patterns, then annotation patterns, then bullets. -/
def observation_candidates (content : String) : List Obs :=
  (strength_patterns.map (obs_from 3 10 "strength" content)).flatten ++
  (weakness_patterns.map (obs_from 3 10 "weakness" content)).flatten ++
  (annotation_patterns.map (obs_from 5 5 "annotation" content)).flatten ++
  (bullet_patterns.map (bullet_obs content)).flatten

/-- The dedup key of an observation: lowercased first 50 characters of
its text. -/
def obsKey (o : Obs) : String :=
  ((o.text.toList.take 50).map Char.toLower).asString

/-- The dedup loop of `extract_key_observations`: first occurrence of a
key wins. -/
def dedupObs : List Obs → List String → List Obs
  | [], _ => []
  | o :: rest, seen =>
      if seen.contains (obsKey o) then dedupObs rest seen
      else o :: dedupObs rest (obsKey o :: seen)

/-- `extract_key_observations(content)`: gather, deduplicate, cap at
20. -/
def extract_key_observations (content : String) : List Obs :=
  (dedupObs (observation_candidates content) []).take 20

/-- A raw post record; `none` models an absent JSON field (Python's
`post['title']` raises `KeyError` exactly when the field is absent,
`post.get('id')` never raises). -/
structure RawPost where
  title : Option String
  content : Option String
  id : Option String

/-- An enriched post: the fields the enrichment loop adds. -/
structure Enriched where
  title : String
  content : String
  model : String
  homework : String
  failure_modes : List String
  outcome : String
  observations : List Obs
  has_pdf : Bool
  pdf_char_count : Nat
deriving DecidableEq, Repr

/-- The per-post body of the enrichment loop.  `pdf_content_map` models
`pdf_content_map.get(post_id, '')` as a total map with default `""`;
`none` models the `KeyError` the loop raises on a missing `title` or
`content` field. -/
def enrich_post (pdf_content_map : String → String) (post : RawPost) : Option Enriched := do
  let title ← post.title
  let content ← post.content
  let post_id := post.id
  let pdf_text := match post_id with
    | some i => pdf_content_map i
    | none => ""
  let full_content :=
    if pdf_text ≠ "" then content ++ "\n\n--- PDF ANNOTATIONS ---\n" ++ pdf_text
    else content
  let model := extract_model title full_content
  let homework := extract_homework title full_content
  let failure_modes := extract_failure_modes full_content
  let outcome := analyze_outcome full_content
  let observations := extract_key_observations full_content
  let has_pdf := pdf_text != ""
  return ⟨title, content, model, homework, failure_modes, outcome, observations,
    has_pdf, if pdf_text ≠ "" then pdf_text.length else 0⟩

/-- A `model_stats` bucket (`defaultdict` entry): outcome counters are
kept keyed by their Python dict key. -/
structure ModelBucket where
  total : Nat
  counts : String → Nat
  homeworks : String → Nat
  failure_modes : String → Nat

/-- A fresh `model_stats` bucket. -/
def initModelBucket : ModelBucket := ⟨0, fun _ => 0, fun _ => 0, fun _ => 0⟩

/-- A `hw_stats` bucket. -/
structure HwBucket where
  total : Nat
  counts : String → Nat
  models : String → Nat
  failure_modes : String → Nat

/-- A fresh `hw_stats` bucket. -/
def initHwBucket : HwBucket := ⟨0, fun _ => 0, fun _ => 0, fun _ => 0⟩

/-- A `failure_mode_stats` bucket. -/
structure FmBucket where
  total : Nat
  by_model : String → Nat
  by_homework : String → Nat

/-- A fresh `failure_mode_stats` bucket. -/
def initFmBucket : FmBucket := ⟨0, fun _ => 0, fun _ => 0⟩

/-- Point update of a counter map (`d[k] += 1` on a `defaultdict(int)`). -/
def bumpAt (f : String → Nat) (k : String) : String → Nat :=
  fun k' => if k' = k then f k' + 1 else f k'

/-- `defaultdict` access-and-update: modify the bucket of `k`, creating
it (at the end, as Python dicts append new keys) when absent. -/
def upd {β : Type} (dflt : β) : List (String × β) → String → (β → β) → List (String × β)
  | [], k, f => [(k, f dflt)]
  | (k', b) :: rest, k, f =>
      if k' = k then (k', f b) :: rest else (k', b) :: upd dflt rest k f

/-- The `model_stats` updates of one fold step. -/
def step_model_stats (stats : List (String × ModelBucket)) (p : Enriched) :
    List (String × ModelBucket) :=
  let stats := upd initModelBucket stats p.model (fun b => { b with total := b.total + 1 })
  let stats := upd initModelBucket stats p.model
    (fun b => { b with counts := bumpAt b.counts p.outcome })
  let stats := upd initModelBucket stats p.model
    (fun b => { b with homeworks := bumpAt b.homeworks p.homework })
  p.failure_modes.foldl
    (fun st fm => upd initModelBucket st p.model
      (fun b => { b with failure_modes := bumpAt b.failure_modes fm }))
    stats

/-- The `model_stats` fold over all enriched posts. -/
def model_stats_of (posts : List Enriched) : List (String × ModelBucket) :=
  posts.foldl step_model_stats []

/-- The `hw_stats` updates of one fold step. -/
def step_hw_stats (stats : List (String × HwBucket)) (p : Enriched) :
    List (String × HwBucket) :=
  let stats := upd initHwBucket stats p.homework (fun b => { b with total := b.total + 1 })
  let stats := upd initHwBucket stats p.homework
    (fun b => { b with counts := bumpAt b.counts p.outcome })
  let stats := upd initHwBucket stats p.homework
    (fun b => { b with models := bumpAt b.models p.model })
  p.failure_modes.foldl
    (fun st fm => upd initHwBucket st p.homework
      (fun b => { b with failure_modes := bumpAt b.failure_modes fm }))
    stats

/-- The `hw_stats` fold over all enriched posts. -/
def hw_stats_of (posts : List Enriched) : List (String × HwBucket) :=
  posts.foldl step_hw_stats []

/-- The `failure_mode_stats` updates of one fold step. -/
def step_fm_stats (stats : List (String × FmBucket)) (p : Enriched) :
    List (String × FmBucket) :=
  p.failure_modes.foldl
    (fun st fm =>
      let st := upd initFmBucket st fm (fun b => { b with total := b.total + 1 })
      let st := upd initFmBucket st fm (fun b => { b with by_model := bumpAt b.by_model p.model })
      upd initFmBucket st fm (fun b => { b with by_homework := bumpAt b.by_homework p.homework }))
    stats

/-- The `failure_mode_stats` fold over all enriched posts. -/
def failure_mode_stats_of (posts : List Enriched) : List (String × FmBucket) :=
  posts.foldl step_fm_stats []

/-- Exact rational stand-in for Python's `round(x, 1)` (half-up on exact
rationals; the float base-2 representation and banker's rounding of
CPython are out of the claims' scope, which concern only the
divide-by-zero guard). -/
def pyround1 (q : ℚ) : ℚ := (⌊q * 10 + 1 / 2⌋ : ℚ) / 10

/-- The summary's `overall_success_rate`; `none` models the
`ZeroDivisionError` of `… / len(enriched_posts)` on an empty corpus. -/
def overall_success_rate (posts : List Enriched) : Option ℚ :=
  if posts.length = 0 then none
  else some (pyround1
    ((posts.countP (fun p => p.outcome == "success") : ℚ) / (posts.length : ℚ) * 100))

/-- Python `max(l, key=lambda x: x[1])`: first maximum wins;
`Except.error ()` models the `ValueError` on an empty list. -/
def pymax (l : List (String × Nat)) : Except Unit (String × Nat) :=
  match l with
  | [] => Except.error ()
  | x :: xs => Except.ok (xs.foldl (fun b a => if a.2 > b.2 then a else b) x)

/-- The summary's `top_model`: `None` when `model_stats` is empty,
otherwise the maximum-total entry after dropping the `"Unknown"` bucket
(`Except.error ()` models the `ValueError` `max` raises when the filter
leaves nothing). -/
def top_model (ms : List (String × ModelBucket)) : Except Unit (Option (String × Nat)) :=
  if ms.isEmpty then Except.ok none
  else (pymax ((ms.filter (fun pr => pr.1 != "Unknown")).map
    (fun pr => (pr.1, pr.2.total)))).map some

/-- The summary's `top_failure_mode`: `None` when `failure_mode_stats`
is empty, otherwise the maximum-total entry labelled through
`FAILURE_PATTERNS[fm]['label']`. -/
def top_failure_mode (fs : List (String × FmBucket)) : Except Unit (Option (String × Nat)) :=
  if fs.isEmpty then Except.ok none
  else (pymax (fs.map
    (fun pr => ((FAILURE_LABELS.lookup pr.1).getD "", pr.2.total)))).map some

/-- Sum of `total` over all `model_stats` buckets
(`sum(ModelStats[*].total)`). -/
def modelTotals (stats : List (String × ModelBucket)) : Nat :=
  (stats.map (fun pr => pr.2.total)).sum

/-- Sum of `total` over all `hw_stats` buckets. -/
def hwTotals (stats : List (String × HwBucket)) : Nat :=
  (stats.map (fun pr => pr.2.total)).sum

/-- Sum of the four outcome counters of one `model_stats` bucket. -/
def outcomesSumM (b : ModelBucket) : Nat :=
  b.counts "success" + b.counts "partial" + b.counts "failed" + b.counts "unknown"

/-- Sum of the four outcome counters of one `hw_stats` bucket. -/
def outcomesSumH (b : HwBucket) : Nat :=
  b.counts "success" + b.counts "partial" + b.counts "failed" + b.counts "unknown"

/-- Sum of the outcome counters over all `model_stats` buckets. -/
def modelOutcomes (stats : List (String × ModelBucket)) : Nat :=
  (stats.map (fun pr => outcomesSumM pr.2)).sum

/-- Sum of the outcome counters over all `hw_stats` buckets. -/
def hwOutcomes (stats : List (String × HwBucket)) : Nat :=
  (stats.map (fun pr => outcomesSumH pr.2)).sum

/-- The `total` of the bucket of model `m` (0 when the bucket does not
exist). -/
def totalForModel (stats : List (String × ModelBucket)) (m : String) : Nat :=
  match stats.lookup m with
  | some b => b.total
  | none => 0

/-- The `total` of the bucket of homework `h` (0 when absent). -/
def totalForHw (stats : List (String × HwBucket)) (h : String) : Nat :=
  match stats.lookup h with
  | some b => b.total
  | none => 0

/-- The `gpt[\s\-]*5\.1[\s\-]*pro` rule of `model_patterns` (its fifth
entry), named for the precedence lemmas. -/
def gpt51pro_pattern : List REx :=
  lits "gpt" ++ [sd] ++ lits "5.1" ++ [sd] ++ lits "pro"

/-- The fixed id enumeration order of the failure-mode catalog. -/
def failure_catalog_order : List String :=
  ["hallucination", "context_loss", "wrong_algorithm", "api_confusion",
   "dimension_errors", "instruction_violation", "hyperparameter_tuning",
   "visual_reasoning", "conceptual_gap", "debugging_struggles", "verbosity",
   "overcomplicated"]

/-- Twenty-five genuinely distinct bullet lines (they differ inside their
first 50 characters), each classified as a strength by the word
`good`. -/
def bulls25 : String :=
  String.intercalate "\n" ((List.range 25).map (fun i =>
    "• good bullet number " ++ (if i + 1 < 10 then "0" else "") ++ toString (i + 1)))

/-- Twenty-five distinct bullet lines sharing an identical 50-character
lowercased prefix (they differ only from their 51st captured character
on). -/
def samePrefixBullets : String :=
  String.intercalate "\n" ((List.range 25).map (fun i =>
    "• good bullet number padding padding padding padding a" ++ toString (i + 10)))

/-- Two sublists of a duplicate-free list that have the same members are
equal. -/
theorem sublist_eq_of_mem_iff {α : Type} :
    ∀ {L l₁ l₂ : List α}, List.Sublist l₁ L → List.Sublist l₂ L → L.Nodup →
      (∀ a, a ∈ l₁ ↔ a ∈ l₂) → l₁ = l₂ := by
  intro L
  induction L with
  | nil =>
    intro l₁ l₂ h₁ h₂ _ _
    rw [List.sublist_nil.mp h₁, List.sublist_nil.mp h₂]
  | cons x L ih =>
    intro l₁ l₂ h₁ h₂ hL hm
    have hx : x ∉ L := (List.nodup_cons.mp hL).1
    have hL' : L.Nodup := (List.nodup_cons.mp hL).2
    cases h₁ with
    | cons _ h₁ =>
      cases h₂ with
      | cons _ h₂ => exact ih h₁ h₂ hL' hm
      | cons₂ _ h₂ =>
        exact absurd (h₁.subset ((hm x).mpr (List.mem_cons_self _ _))) hx
    | cons₂ _ h₁ =>
      cases h₂ with
      | cons _ h₂ =>
        exact absurd (h₂.subset ((hm x).mp (List.mem_cons_self _ _))) hx
      | cons₂ _ h₂ =>
        congr 1
        apply ih h₁ h₂ hL'
        intro a
        by_cases hax : a = x
        · subst hax
          constructor <;> intro ha
          · exact absurd (h₁.subset ha) hx
          · exact absurd (h₂.subset ha) hx
        · have := hm a
          simpa [List.mem_cons, hax] using this

/-- Every `hwFromMatches` result has the shape `"HW" ++ toString n`. -/
theorem hwFromMatches_form :
    ∀ ms r, hwFromMatches ms = some r → ∃ n : Nat, r = "HW" ++ toString n := by
  intro ms
  induction ms with
  | nil => intro r h; simp [hwFromMatches] at h
  | cons m rest ih =>
    intro r h
    unfold hwFromMatches at h
    split at h
    · exact ih r h
    · exact ⟨_, (Option.some_inj.mp h).symm⟩

/-- C1: `analyze_outcome` returns exactly one of the four outcome
strings, computed from the three distinct-indicator counts by the fixed
priority cascade; in particular `failure_score > success_score + 2`
forces `"failed"` whatever `partial_score` is. -/
theorem analyze_outcome_policy (content : String) :
    analyze_outcome content ∈ ["success", "partial", "failed", "unknown"] ∧
    analyze_outcome content =
      (if failure_score content > success_score content + 2 then "failed"
       else if success_score content > 0 ∧ partial_score content > success_score content then
         "partial"
       else if success_score content ≥ 2 then "success"
       else if partial_score content > 0 then "partial"
       else if failure_score content > 0 then "failed"
       else "unknown") ∧
    (failure_score content > success_score content + 2 →
      analyze_outcome content = "failed") := by
  refine ⟨?_, rfl, ?_⟩
  · unfold analyze_outcome
    split_ifs <;> simp
  · intro h
    unfold analyze_outcome
    rw [if_pos h]

/-- Witness for C1: a text with five distinct failure indicators and no
success indicator classifies as `failed`. -/
theorem analyze_outcome_policy_witness :
    failure_score "failed couldn't unable to incorrect wrong" >
      success_score "failed couldn't unable to incorrect wrong" + 2 ∧
    analyze_outcome "failed couldn't unable to incorrect wrong" = "failed" :=
  ⟨by decide,
   (analyze_outcome_policy "failed couldn't unable to incorrect wrong").2.2 (by decide)⟩

/-- C5: on an empty corpus the summary's `overall_success_rate` divides
by `len(enriched_posts) = 0`; the embedded computation returns `none`
(the model of the `ZeroDivisionError`), not a sentinel value. -/
theorem overall_success_rate_empty_raises : overall_success_rate [] = none := rfl

/-- C8: `extract_failure_modes` lists each failure-mode id at most once
(the result is duplicate-free), and an id is listed exactly when at
least one of its keyword regexes matches the lowercased text. -/
theorem extract_failure_modes_set (content : String) :
    (extract_failure_modes content).Nodup ∧
    ∀ fid, fid ∈ extract_failure_modes content ↔
      ∃ pr ∈ FAILURE_PATTERNS, pr.1 = fid ∧
        pr.2.any (fun kw => reSearch false kw (pyLower content)) = true := by
  constructor
  · have hsub : List.Sublist (extract_failure_modes content)
        (FAILURE_PATTERNS.map (fun pr => pr.1)) :=
      List.Sublist.map _ (List.filter_sublist _)
    exact List.Nodup.sublist hsub (by decide)
  · intro fid
    simp only [extract_failure_modes, List.mem_map, List.mem_filter]
    constructor
    · rintro ⟨pr, ⟨hmem, hp⟩, rfl⟩
      exact ⟨pr, hmem, rfl, hp⟩
    · rintro ⟨pr, hmem, rfl, hp⟩
      exact ⟨pr, ⟨hmem, hp⟩, rfl⟩

/-- C10: the failure-mode list is always an ordered subsequence of the
fixed catalog enumeration order, duplicate-free, and fully determined by
which modes are triggered (keyword positions in the text never affect
the order). -/
theorem extract_failure_modes_ordered (content : String) :
    List.Sublist (extract_failure_modes content) failure_catalog_order ∧
    (extract_failure_modes content).Nodup ∧
    ∀ c₂, (∀ fid, fid ∈ extract_failure_modes content ↔ fid ∈ extract_failure_modes c₂) →
      extract_failure_modes content = extract_failure_modes c₂ := by
  have horder : FAILURE_PATTERNS.map (fun pr => pr.1) = failure_catalog_order := by decide
  have hsub : ∀ c : String, List.Sublist (extract_failure_modes c) failure_catalog_order := by
    intro c
    rw [← horder]
    exact List.Sublist.map _ (List.filter_sublist _)
  have hnd : failure_catalog_order.Nodup := by decide
  refine ⟨hsub content, List.Nodup.sublist (hsub content) hnd, ?_⟩
  intro c₂ hm
  exact sublist_eq_of_mem_iff (hsub content) (hsub c₂) hnd hm

/-- Witness for C10: two different texts triggering the same single mode
yield the identical list. -/
theorem extract_failure_modes_ordered_witness :
    extract_failure_modes "it made up results" =
      extract_failure_modes "it would fabricate results" := by
  have h1 : extract_failure_modes "it made up results" = ["hallucination"] := by decide
  have h2 : extract_failure_modes "it would fabricate results" = ["hallucination"] := by decide
  exact (extract_failure_modes_ordered "it made up results").2.2 _ (by simp [h1, h2])

/-- C3: `extract_homework` searches the title first and falls back to
the content only when the title yields nothing; results are `"HW<N>"`
with the matched digits parsed as an integer (leading zeros stripped) or
`"Unknown"`; in particular a title `"HW3 notes"` wins over any content. -/
theorem extract_homework_spec :
    (∀ title content r, hwFromMatches (findall true hwRegex title) = some r →
      extract_homework title content = r) ∧
    (∀ title content, hwFromMatches (findall true hwRegex title) = none →
      extract_homework title content =
        (hwFromMatches (findall true hwRegex content)).getD "Unknown") ∧
    (∀ title content, extract_homework title content = "Unknown" ∨
      ∃ n : Nat, extract_homework title content = "HW" ++ toString n) ∧
    (∀ content, extract_homework "HW3 notes" content = "HW3") ∧
    extract_homework "hw007" "" = "HW7" := by
  refine ⟨?_, ?_, ?_, ?_, by decide⟩
  · intro title content r h
    unfold extract_homework
    rw [h]
  · intro title content h
    unfold extract_homework
    rw [h]
    cases h2 : hwFromMatches (findall true hwRegex content) <;> rfl
  · intro title content
    unfold extract_homework
    cases h1 : hwFromMatches (findall true hwRegex title) with
    | some r => exact Or.inr (hwFromMatches_form _ _ h1)
    | none =>
      cases h2 : hwFromMatches (findall true hwRegex content) with
      | some r => exact Or.inr (hwFromMatches_form _ _ h2)
      | none => exact Or.inl rfl
  · intro content
    have h : hwFromMatches (findall true hwRegex "HW3 notes") = some "HW3" := by decide
    unfold extract_homework
    rw [h]

/-- Witness for C3: the title path of `extract_homework_spec` applied at
a concrete title and content. -/
theorem extract_homework_spec_witness :
    hwFromMatches (findall true hwRegex "HW5 intro") = some "HW5" ∧
    extract_homework "HW5 intro" "see hw9" = "HW5" := by
  have h : hwFromMatches (findall true hwRegex "HW5 intro") = some "HW5" := by decide
  exact ⟨h, extract_homework_spec.1 "HW5 intro" "see hw9" "HW5" h⟩

/-- Association lookup after a `defaultdict` update. -/
theorem lookup_upd {β : Type} (dflt : β) :
    ∀ (stats : List (String × β)) (k m : String) (f : β → β),
      (upd dflt stats k f).lookup m =
        if m = k then some (f ((stats.lookup k).getD dflt)) else stats.lookup m := by
  intro stats
  induction stats with
  | nil =>
    intro k m f
    by_cases hmk : m = k
    · subst hmk; simp [upd, List.lookup]
    · have hb : (m == k) = false := beq_eq_false_iff_ne.mpr hmk
      simp [upd, List.lookup, hmk, hb]
  | cons hd rest ih =>
    intro k m f
    obtain ⟨k', b⟩ := hd
    by_cases hk'k : k' = k
    · subst hk'k
      by_cases hmk : m = k'
      · subst hmk; simp [upd, List.lookup]
      · have hb : (m == k') = false := beq_eq_false_iff_ne.mpr hmk
        simp [upd, List.lookup, hmk, hb]
    · have hb2 : (k == k') = false := beq_eq_false_iff_ne.mpr (fun h => hk'k h.symm)
      by_cases hmk : m = k'
      · subst hmk
        simp [upd, List.lookup, hk'k]
      · have hb : (m == k') = false := beq_eq_false_iff_ne.mpr hmk
        simp [upd, List.lookup, hk'k, hb, hb2, ih]

/-- A bucket update that adds `d` to `total` adds `d` to the sum of all
`model_stats` totals. -/
theorem modelTotals_upd (stats : List (String × ModelBucket)) (k : String)
    (f : ModelBucket → ModelBucket) (d : Nat) (hf : ∀ b, (f b).total = b.total + d) :
    modelTotals (upd initModelBucket stats k f) = modelTotals stats + d := by
  induction stats with
  | nil => simp [upd, modelTotals, hf, initModelBucket]
  | cons hd rest ih =>
    obtain ⟨k', b⟩ := hd
    by_cases h : k' = k
    · simp [upd, h, modelTotals, hf]
      omega
    · simp only [upd, if_neg h, modelTotals, List.map_cons, List.sum_cons] at *
      omega

/-- A bucket update that adds `d` to `total` adds `d` to the sum of all
`hw_stats` totals. -/
theorem hwTotals_upd (stats : List (String × HwBucket)) (k : String)
    (f : HwBucket → HwBucket) (d : Nat) (hf : ∀ b, (f b).total = b.total + d) :
    hwTotals (upd initHwBucket stats k f) = hwTotals stats + d := by
  induction stats with
  | nil => simp [upd, hwTotals, hf, initHwBucket]
  | cons hd rest ih =>
    obtain ⟨k', b⟩ := hd
    by_cases h : k' = k
    · simp [upd, h, hwTotals, hf]
      omega
    · simp only [upd, if_neg h, hwTotals, List.map_cons, List.sum_cons] at *
      omega

/-- Specialisation of `modelTotals_upd` to a `total`-preserving update. -/
theorem modelTotals_upd_keep (stats : List (String × ModelBucket)) (k : String)
    (f : ModelBucket → ModelBucket) (hf : ∀ b, (f b).total = b.total) :
    modelTotals (upd initModelBucket stats k f) = modelTotals stats := by
  simpa using modelTotals_upd stats k f 0 (fun b => (hf b).trans (Nat.add_zero _).symm)

/-- One enrichment-fold step adds exactly one to the `model_stats` total
sum. -/
theorem modelTotals_step (stats : List (String × ModelBucket)) (p : Enriched) :
    modelTotals (step_model_stats stats p) = modelTotals stats + 1 := by
  have hfold : ∀ (l : List String) (st : List (String × ModelBucket)),
      modelTotals (l.foldl (fun st fm => upd initModelBucket st p.model
        (fun b => { b with failure_modes := bumpAt b.failure_modes fm })) st) =
        modelTotals st := by
    intro l
    induction l with
    | nil => intro st; rfl
    | cons a l ih =>
      intro st
      rw [List.foldl_cons, ih, modelTotals_upd_keep _ p.model
        (fun b => { b with failure_modes := bumpAt b.failure_modes a }) (fun b => rfl)]
  simp only [step_model_stats]
  rw [hfold]
  rw [modelTotals_upd_keep _ p.model
        (fun b => { b with homeworks := bumpAt b.homeworks p.homework }) (fun b => rfl),
      modelTotals_upd_keep _ p.model
        (fun b => { b with counts := bumpAt b.counts p.outcome }) (fun b => rfl),
      modelTotals_upd _ p.model (fun b => { b with total := b.total + 1 }) 1 (fun b => rfl)]

/-- Specialisation of `hwTotals_upd` to a `total`-preserving update. -/
theorem hwTotals_upd_keep (stats : List (String × HwBucket)) (k : String)
    (f : HwBucket → HwBucket) (hf : ∀ b, (f b).total = b.total) :
    hwTotals (upd initHwBucket stats k f) = hwTotals stats := by
  simpa using hwTotals_upd stats k f 0 (fun b => (hf b).trans (Nat.add_zero _).symm)

/-- One enrichment-fold step adds exactly one to the `hw_stats` total
sum. -/
theorem hwTotals_step (stats : List (String × HwBucket)) (p : Enriched) :
    hwTotals (step_hw_stats stats p) = hwTotals stats + 1 := by
  have hfold : ∀ (l : List String) (st : List (String × HwBucket)),
      hwTotals (l.foldl (fun st fm => upd initHwBucket st p.homework
        (fun b => { b with failure_modes := bumpAt b.failure_modes fm })) st) =
        hwTotals st := by
    intro l
    induction l with
    | nil => intro st; rfl
    | cons a l ih =>
      intro st
      rw [List.foldl_cons, ih, hwTotals_upd_keep _ p.homework
        (fun b => { b with failure_modes := bumpAt b.failure_modes a }) (fun b => rfl)]
  simp only [step_hw_stats]
  rw [hfold]
  rw [hwTotals_upd_keep _ p.homework
        (fun b => { b with models := bumpAt b.models p.model }) (fun b => rfl),
      hwTotals_upd_keep _ p.homework
        (fun b => { b with counts := bumpAt b.counts p.outcome }) (fun b => rfl),
      hwTotals_upd _ p.homework (fun b => { b with total := b.total + 1 }) 1 (fun b => rfl)]

/-- The `model_stats` total sum over a fold. -/
theorem modelTotals_foldl :
    ∀ (posts : List Enriched) (acc : List (String × ModelBucket)),
      modelTotals (posts.foldl step_model_stats acc) = modelTotals acc + posts.length := by
  intro posts
  induction posts with
  | nil => intro acc; simp
  | cons p ps ih =>
    intro acc
    rw [List.foldl_cons, ih, modelTotals_step]
    simp
    omega

/-- The `hw_stats` total sum over a fold. -/
theorem hwTotals_foldl :
    ∀ (posts : List Enriched) (acc : List (String × HwBucket)),
      hwTotals (posts.foldl step_hw_stats acc) = hwTotals acc + posts.length := by
  intro posts
  induction posts with
  | nil => intro acc; simp
  | cons p ps ih =>
    intro acc
    rw [List.foldl_cons, ih, hwTotals_step]
    simp
    omega

/-- Bumping one of the four outcome keys adds one to a bucket's outcome
sum. -/
theorem outcomesSumM_bump (b : ModelBucket) (outcome : String)
    (h : outcome ∈ ["success", "partial", "failed", "unknown"]) :
    outcomesSumM { b with counts := bumpAt b.counts outcome } = outcomesSumM b + 1 := by
  simp only [List.mem_cons, List.not_mem_nil, or_false] at h
  rcases h with rfl | rfl | rfl | rfl <;> simp [outcomesSumM, bumpAt] <;> omega

/-- Bumping one of the four outcome keys adds one to a `hw_stats`
bucket's outcome sum. -/
theorem outcomesSumH_bump (b : HwBucket) (outcome : String)
    (h : outcome ∈ ["success", "partial", "failed", "unknown"]) :
    outcomesSumH { b with counts := bumpAt b.counts outcome } = outcomesSumH b + 1 := by
  simp only [List.mem_cons, List.not_mem_nil, or_false] at h
  rcases h with rfl | rfl | rfl | rfl <;> simp [outcomesSumH, bumpAt] <;> omega

/-- A bucket update that adds `d` to the outcome sum adds `d` to the sum
over all `model_stats` buckets. -/
theorem modelOutcomes_upd (stats : List (String × ModelBucket)) (k : String)
    (f : ModelBucket → ModelBucket) (d : Nat)
    (hf : ∀ b, outcomesSumM (f b) = outcomesSumM b + d) :
    modelOutcomes (upd initModelBucket stats k f) = modelOutcomes stats + d := by
  induction stats with
  | nil =>
    simp only [upd, modelOutcomes, List.map_cons, List.map_nil, List.sum_cons, List.sum_nil]
    rw [hf]
    simp [outcomesSumM, initModelBucket]
  | cons hd rest ih =>
    obtain ⟨k', b⟩ := hd
    by_cases h : k' = k
    · simp [upd, h, modelOutcomes, hf]
      omega
    · simp only [upd, if_neg h, modelOutcomes, List.map_cons, List.sum_cons] at *
      omega

/-- A bucket update that adds `d` to the outcome sum adds `d` to the sum
over all `hw_stats` buckets. -/
theorem hwOutcomes_upd (stats : List (String × HwBucket)) (k : String)
    (f : HwBucket → HwBucket) (d : Nat)
    (hf : ∀ b, outcomesSumH (f b) = outcomesSumH b + d) :
    hwOutcomes (upd initHwBucket stats k f) = hwOutcomes stats + d := by
  induction stats with
  | nil =>
    simp only [upd, hwOutcomes, List.map_cons, List.map_nil, List.sum_cons, List.sum_nil]
    rw [hf]
    simp [outcomesSumH, initHwBucket]
  | cons hd rest ih =>
    obtain ⟨k', b⟩ := hd
    by_cases h : k' = k
    · simp [upd, h, hwOutcomes, hf]
      omega
    · simp only [upd, if_neg h, hwOutcomes, List.map_cons, List.sum_cons] at *
      omega

/-- Specialisation of `modelOutcomes_upd` to an outcome-preserving
update. -/
theorem modelOutcomes_upd_keep (stats : List (String × ModelBucket)) (k : String)
    (f : ModelBucket → ModelBucket) (hf : ∀ b, outcomesSumM (f b) = outcomesSumM b) :
    modelOutcomes (upd initModelBucket stats k f) = modelOutcomes stats := by
  simpa using modelOutcomes_upd stats k f 0 (fun b => (hf b).trans (Nat.add_zero _).symm)

/-- Specialisation of `hwOutcomes_upd` to an outcome-preserving
update. -/
theorem hwOutcomes_upd_keep (stats : List (String × HwBucket)) (k : String)
    (f : HwBucket → HwBucket) (hf : ∀ b, outcomesSumH (f b) = outcomesSumH b) :
    hwOutcomes (upd initHwBucket stats k f) = hwOutcomes stats := by
  simpa using hwOutcomes_upd stats k f 0 (fun b => (hf b).trans (Nat.add_zero _).symm)

/-- One fold step with an in-range outcome adds exactly one to the
`model_stats` outcome sum. -/
theorem modelOutcomes_step (stats : List (String × ModelBucket)) (p : Enriched)
    (h : p.outcome ∈ ["success", "partial", "failed", "unknown"]) :
    modelOutcomes (step_model_stats stats p) = modelOutcomes stats + 1 := by
  have hfold : ∀ (l : List String) (st : List (String × ModelBucket)),
      modelOutcomes (l.foldl (fun st fm => upd initModelBucket st p.model
        (fun b => { b with failure_modes := bumpAt b.failure_modes fm })) st) =
        modelOutcomes st := by
    intro l
    induction l with
    | nil => intro st; rfl
    | cons a l ih =>
      intro st
      rw [List.foldl_cons, ih, modelOutcomes_upd_keep _ p.model
        (fun b => { b with failure_modes := bumpAt b.failure_modes a }) (fun b => rfl)]
  simp only [step_model_stats]
  rw [hfold]
  rw [modelOutcomes_upd_keep _ p.model
        (fun b => { b with homeworks := bumpAt b.homeworks p.homework }) (fun b => rfl),
      modelOutcomes_upd _ p.model
        (fun b => { b with counts := bumpAt b.counts p.outcome }) 1
        (fun b => outcomesSumM_bump b p.outcome h),
      modelOutcomes_upd_keep _ p.model
        (fun b => { b with total := b.total + 1 }) (fun b => rfl)]

/-- One fold step with an in-range outcome adds exactly one to the
`hw_stats` outcome sum. -/
theorem hwOutcomes_step (stats : List (String × HwBucket)) (p : Enriched)
    (h : p.outcome ∈ ["success", "partial", "failed", "unknown"]) :
    hwOutcomes (step_hw_stats stats p) = hwOutcomes stats + 1 := by
  have hfold : ∀ (l : List String) (st : List (String × HwBucket)),
      hwOutcomes (l.foldl (fun st fm => upd initHwBucket st p.homework
        (fun b => { b with failure_modes := bumpAt b.failure_modes fm })) st) =
        hwOutcomes st := by
    intro l
    induction l with
    | nil => intro st; rfl
    | cons a l ih =>
      intro st
      rw [List.foldl_cons, ih, hwOutcomes_upd_keep _ p.homework
        (fun b => { b with failure_modes := bumpAt b.failure_modes a }) (fun b => rfl)]
  simp only [step_hw_stats]
  rw [hfold]
  rw [hwOutcomes_upd_keep _ p.homework
        (fun b => { b with models := bumpAt b.models p.model }) (fun b => rfl),
      hwOutcomes_upd _ p.homework
        (fun b => { b with counts := bumpAt b.counts p.outcome }) 1
        (fun b => outcomesSumH_bump b p.outcome h),
      hwOutcomes_upd_keep _ p.homework
        (fun b => { b with total := b.total + 1 }) (fun b => rfl)]

/-- The `model_stats` outcome sum over a fold of in-range posts. -/
theorem modelOutcomes_foldl :
    ∀ (posts : List Enriched) (acc : List (String × ModelBucket)),
      (∀ p ∈ posts, p.outcome ∈ ["success", "partial", "failed", "unknown"]) →
      modelOutcomes (posts.foldl step_model_stats acc) = modelOutcomes acc + posts.length := by
  intro posts
  induction posts with
  | nil => intro acc _; simp
  | cons p ps ih =>
    intro acc h
    rw [List.foldl_cons, ih _ (fun q hq => h q (List.mem_cons_of_mem _ hq)),
      modelOutcomes_step _ _ (h p (List.mem_cons_self _ _))]
    simp
    omega

/-- The `hw_stats` outcome sum over a fold of in-range posts. -/
theorem hwOutcomes_foldl :
    ∀ (posts : List Enriched) (acc : List (String × HwBucket)),
      (∀ p ∈ posts, p.outcome ∈ ["success", "partial", "failed", "unknown"]) →
      hwOutcomes (posts.foldl step_hw_stats acc) = hwOutcomes acc + posts.length := by
  intro posts
  induction posts with
  | nil => intro acc _; simp
  | cons p ps ih =>
    intro acc h
    rw [List.foldl_cons, ih _ (fun q hq => h q (List.mem_cons_of_mem _ hq)),
      hwOutcomes_step _ _ (h p (List.mem_cons_self _ _))]
    simp
    omega

/-- Per-key `total` after a bucket update. -/
theorem totalForModel_upd (stats : List (String × ModelBucket)) (k m : String)
    (f : ModelBucket → ModelBucket) (d : Nat) (hf : ∀ b, (f b).total = b.total + d) :
    totalForModel (upd initModelBucket stats k f) m =
      totalForModel stats m + (if m = k then d else 0) := by
  unfold totalForModel
  rw [lookup_upd]
  by_cases hmk : m = k
  · subst hmk
    cases hl : stats.lookup m <;> simp [hl, hf, initModelBucket]
  · simp [hmk]

/-- Per-key `total` after a `hw_stats` bucket update. -/
theorem totalForHw_upd (stats : List (String × HwBucket)) (k m : String)
    (f : HwBucket → HwBucket) (d : Nat) (hf : ∀ b, (f b).total = b.total + d) :
    totalForHw (upd initHwBucket stats k f) m =
      totalForHw stats m + (if m = k then d else 0) := by
  unfold totalForHw
  rw [lookup_upd]
  by_cases hmk : m = k
  · subst hmk
    cases hl : stats.lookup m <;> simp [hl, hf, initHwBucket]
  · simp [hmk]

/-- One fold step adds one to the post's own model bucket total and
leaves every other bucket total unchanged. -/
theorem totalForModel_step (stats : List (String × ModelBucket)) (p : Enriched) (m : String) :
    totalForModel (step_model_stats stats p) m =
      totalForModel stats m + (if m = p.model then 1 else 0) := by
  have hfold : ∀ (l : List String) (st : List (String × ModelBucket)),
      totalForModel (l.foldl (fun st fm => upd initModelBucket st p.model
        (fun b => { b with failure_modes := bumpAt b.failure_modes fm })) st) m =
        totalForModel st m := by
    intro l
    induction l with
    | nil => intro st; rfl
    | cons a l ih =>
      intro st
      rw [List.foldl_cons, ih, totalForModel_upd _ p.model m
        (fun b => { b with failure_modes := bumpAt b.failure_modes a }) 0 (fun b => rfl)]
      simp
  simp only [step_model_stats]
  rw [hfold]
  rw [totalForModel_upd _ p.model m
        (fun b => { b with homeworks := bumpAt b.homeworks p.homework }) 0 (fun b => rfl),
      totalForModel_upd _ p.model m
        (fun b => { b with counts := bumpAt b.counts p.outcome }) 0 (fun b => rfl),
      totalForModel_upd _ p.model m
        (fun b => { b with total := b.total + 1 }) 1 (fun b => rfl)]
  simp

/-- One fold step adds one to the post's own homework bucket total and
leaves every other bucket total unchanged. -/
theorem totalForHw_step (stats : List (String × HwBucket)) (p : Enriched) (m : String) :
    totalForHw (step_hw_stats stats p) m =
      totalForHw stats m + (if m = p.homework then 1 else 0) := by
  have hfold : ∀ (l : List String) (st : List (String × HwBucket)),
      totalForHw (l.foldl (fun st fm => upd initHwBucket st p.homework
        (fun b => { b with failure_modes := bumpAt b.failure_modes fm })) st) m =
        totalForHw st m := by
    intro l
    induction l with
    | nil => intro st; rfl
    | cons a l ih =>
      intro st
      rw [List.foldl_cons, ih, totalForHw_upd _ p.homework m
        (fun b => { b with failure_modes := bumpAt b.failure_modes a }) 0 (fun b => rfl)]
      simp
  simp only [step_hw_stats]
  rw [hfold]
  rw [totalForHw_upd _ p.homework m
        (fun b => { b with models := bumpAt b.models p.model }) 0 (fun b => rfl),
      totalForHw_upd _ p.homework m
        (fun b => { b with counts := bumpAt b.counts p.outcome }) 0 (fun b => rfl),
      totalForHw_upd _ p.homework m
        (fun b => { b with total := b.total + 1 }) 1 (fun b => rfl)]
  simp

/-- Per-model bucket totals over a fold count the posts of that model. -/
theorem totalForModel_foldl :
    ∀ (posts : List Enriched) (acc : List (String × ModelBucket)) (m : String),
      totalForModel (posts.foldl step_model_stats acc) m =
        totalForModel acc m + posts.countP (fun p => p.model == m) := by
  intro posts
  induction posts with
  | nil => intro acc m; simp
  | cons p ps ih =>
    intro acc m
    rw [List.foldl_cons, ih, totalForModel_step, List.countP_cons]
    by_cases h : p.model = m
    · simp [h]
      omega
    · have hb : (p.model == m) = false := beq_eq_false_iff_ne.mpr h
      have h2 : ¬m = p.model := fun hh => h hh.symm
      simp [hb, h2]

/-- Per-homework bucket totals over a fold count the posts of that
homework. -/
theorem totalForHw_foldl :
    ∀ (posts : List Enriched) (acc : List (String × HwBucket)) (m : String),
      totalForHw (posts.foldl step_hw_stats acc) m =
        totalForHw acc m + posts.countP (fun p => p.homework == m) := by
  intro posts
  induction posts with
  | nil => intro acc m; simp
  | cons p ps ih =>
    intro acc m
    rw [List.foldl_cons, ih, totalForHw_step, List.countP_cons]
    by_cases h : p.homework = m
    · simp [h]
      omega
    · have hb : (p.homework == m) = false := beq_eq_false_iff_ne.mpr h
      have h2 : ¬m = p.homework := fun hh => h hh.symm
      simp [hb, h2]

/-- C4: aggregation conservation.  The fold never skips a post: the
`model_stats` and `hw_stats` totals each sum to the number of posts;
when every outcome is one of the four outcome strings (which
`analyze_outcome` guarantees), the outcome buckets also sum to the
number of posts, so each post increments exactly one outcome bucket per
rollup; and each bucket's own total counts exactly the posts carrying
that literal label — in particular posts labelled `"Unknown"` are
counted under `"Unknown"`. -/
theorem aggregation_conservation (posts : List Enriched) :
    modelTotals (model_stats_of posts) = posts.length ∧
    hwTotals (hw_stats_of posts) = posts.length ∧
    ((∀ p ∈ posts, p.outcome ∈ ["success", "partial", "failed", "unknown"]) →
      modelOutcomes (model_stats_of posts) = posts.length ∧
      hwOutcomes (hw_stats_of posts) = posts.length) ∧
    (∀ m, totalForModel (model_stats_of posts) m = posts.countP (fun p => p.model == m)) ∧
    (∀ h, totalForHw (hw_stats_of posts) h = posts.countP (fun p => p.homework == h)) := by
  refine ⟨?_, ?_, fun h => ⟨?_, ?_⟩, fun m => ?_, fun h => ?_⟩
  · simpa [modelTotals] using modelTotals_foldl posts []
  · simpa [hwTotals] using hwTotals_foldl posts []
  · simpa [modelOutcomes] using modelOutcomes_foldl posts [] h
  · simpa [hwOutcomes] using hwOutcomes_foldl posts [] h
  · simpa [totalForModel] using totalForModel_foldl posts [] m
  · simpa [totalForHw] using totalForHw_foldl posts [] h

/-- Witness for C4: a concrete two-post corpus, one post with model and
homework `"Unknown"`, satisfies conservation and counts the `"Unknown"`
post under the literal label. -/
theorem aggregation_conservation_witness :
    modelOutcomes (model_stats_of
      [⟨"t1", "c1", "Unknown", "Unknown", [], "success", [], false, 0⟩,
       ⟨"t2", "c2", "GPT 5", "HW1", [], "unknown", [], false, 0⟩]) = 2 ∧
    totalForModel (model_stats_of
      [⟨"t1", "c1", "Unknown", "Unknown", [], "success", [], false, 0⟩,
       ⟨"t2", "c2", "GPT 5", "HW1", [], "unknown", [], false, 0⟩]) "Unknown" = 1 := by
  constructor
  · exact ((aggregation_conservation _).2.2.1 (by decide)).1
  · rw [(aggregation_conservation _).2.2.2.1 "Unknown"]
    decide

/-- Counterexample for C6: a raw post whose `title` field is absent is
not enriched — the enrichment loop's `post['title']` access raises
(modelled as `none`), instead of treating the field as an empty
string. -/
theorem enrich_post_missing_title_raises :
    enrich_post (fun _ => "") ⟨none, some "abc", none⟩ = none := rfl

/-- C6 (amended): the enrichment loop requires `title` and `content` to
be present (a missing one raises `KeyError`; only `id` is read
permissively), but the extractor functions themselves accept empty
strings without failing — a post with empty `title` and `content` is
enriched with all the `"Unknown"`/`"unknown"`/empty fallbacks. -/
theorem enrich_post_fields :
    (∀ f post, (enrich_post f post).isSome ↔ (post.title.isSome ∧ post.content.isSome)) ∧
    enrich_post (fun _ => "") ⟨some "", some "", none⟩ =
      some ⟨"", "", "Unknown", "Unknown", [], "unknown", [], false, 0⟩ := by
  constructor
  · intro f post
    obtain ⟨t, c, i⟩ := post
    cases t <;> cases c <;> simp [enrich_post]
  · rfl

/-- C7: on a one-post corpus whose post mentions no model, the
`model_stats` map holds only the `"Unknown"` bucket, so it is non-empty
and passes the `if model_stats` guard, yet the `"Unknown"`-excluding
comprehension is empty and `max` raises `ValueError`
(`Except.error ()`); `top_failure_mode` on the empty failure-mode map is
the guarded `None` sentinel. -/
theorem top_model_unknown_only_raises :
    (enrich_post (fun _ => "") ⟨some "hello", some "no model mentioned here", none⟩).map
        (fun e => (top_model (model_stats_of [e]),
          top_failure_mode (failure_mode_stats_of [e]))) =
      some (Except.error (), Except.ok none) := rfl

/-- Keys surviving `dedupObs` avoid the already-seen set. -/
theorem dedupObs_not_seen :
    ∀ (l : List Obs) (seen : List String), ∀ o ∈ dedupObs l seen, obsKey o ∉ seen := by
  intro l
  induction l with
  | nil => intro seen o ho; simp [dedupObs] at ho
  | cons a rest ih =>
    intro seen o ho
    unfold dedupObs at ho
    split at ho
    · exact ih seen o ho
    · rcases (List.mem_cons.mp ho) with rfl | ho'
      · rename_i hcon
        simpa using hcon
      · intro hins
        exact ih _ o ho' (List.mem_cons_of_mem _ hins)

/-- `dedupObs` keeps pairwise-distinct keys: the first occurrence of a
key wins and later duplicates are dropped. -/
theorem dedupObs_keys_nodup :
    ∀ (l : List Obs) (seen : List String), ((dedupObs l seen).map obsKey).Nodup := by
  intro l
  induction l with
  | nil => intro seen; simp [dedupObs]
  | cons a rest ih =>
    intro seen
    unfold dedupObs
    split
    · exact ih seen
    · refine List.nodup_cons.mpr ⟨?_, ih _⟩
      intro hmem
      rcases List.mem_map.mp hmem with ⟨o, ho, hko⟩
      exact dedupObs_not_seen rest _ o ho (hko ▸ List.mem_cons_self _ _)

set_option maxRecDepth 100000 in
set_option maxHeartbeats 8000000 in
/-- Counterexample for C9: twenty-five genuinely distinct bullet lines
yield five observations, not twenty — each bullet regex contributes at
most its first five `findall` matches. -/
theorem extract_key_observations_bullet_cap :
    (extract_key_observations bulls25).length = 5 ∧
    (extract_key_observations bulls25).length ≠ 20 := by
  have h : (extract_key_observations bulls25).length = 5 := by decide
  exact ⟨h, by rw [h]; decide⟩

set_option maxRecDepth 100000 in
set_option maxHeartbeats 8000000 in
/-- C9 (amended): `extract_key_observations` returns the first 20
survivors, in extraction order, of deduplication by lowercased 50-char
prefix over the candidate list (which itself caps each strength/weakness
pattern at 3 matches and each annotation/bullet pattern at 5); the
result never exceeds 20 and its dedup keys are pairwise distinct; 25
bullet lines sharing one lowercased 50-character prefix yield exactly
one observation, while 25 genuinely distinct bullet lines yield five
(per-pattern caps), not twenty. -/
theorem extract_key_observations_spec :
    (∀ content,
      (extract_key_observations content).length ≤ 20 ∧
      extract_key_observations content =
        (dedupObs (observation_candidates content) []).take 20 ∧
      ((extract_key_observations content).map obsKey).Nodup) ∧
    (extract_key_observations samePrefixBullets).length = 1 := by
  constructor
  · intro content
    refine ⟨List.length_take_le _ _, rfl, ?_⟩
    have hsub : List.Sublist
        ((extract_key_observations content).map obsKey)
        ((dedupObs (observation_candidates content) []).map obsKey) :=
      List.Sublist.map _ (List.take_sublist _ _)
    exact List.Nodup.sublist hsub (dedupObs_keys_nodup _ _)
  · decide

/-- Size of a literal token. -/
theorem reSize_lit (c : Char) : reSize (.lit c) = 1 := rfl

/-- Size of a class token. -/
theorem reSize_cls (pos : Bool) (cs : List Char) : reSize (.cls pos cs) = 1 := rfl

/-- Size of a starred class token. -/
theorem reSize_starCls (pos : Bool) (cs : List Char) : reSize (.starCls pos cs) = 1 := rfl

/-- Size of a counted-repetition token. -/
theorem reSize_repCls (pos : Bool) (cs : List Char) (lo hi : Nat) :
    reSize (.repCls pos cs lo hi) = 1 + hi := rfl

/-- Size of an alternation token. -/
theorem reSize_alt2 (a b : List REx) : reSize (.alt2 a b) = 1 + reListSize a + reListSize b := rfl

/-- Size of an optional group token. -/
theorem reSize_optSeq (a : List REx) : reSize (.optSeq a) = 1 + reListSize a := rfl

/-- Size of a capture opener. -/
theorem reSize_capStart (i : Nat) : reSize (.capStart i) = 1 := rfl

/-- Size of a capture closer. -/
theorem reSize_capEnd : reSize .capEnd = 1 := rfl

/-- Size of a line-start anchor. -/
theorem reSize_bol : reSize .bol = 1 := rfl

/-- Size of the empty token list. -/
theorem reListSize_nil : reListSize [] = 0 := rfl

/-- Size of a token-list cons. -/
theorem reListSize_cons (p : REx) (ps : List REx) :
    reListSize (p :: ps) = reSize p + reListSize ps := rfl

/-- Token-list size is additive over append. -/
theorem reListSize_append : ∀ (a b : List REx), reListSize (a ++ b) = reListSize a + reListSize b := by
  intro a b
  induction a with
  | nil => simp [reListSize_nil]
  | cons p ps ih => simp [reListSize_cons, ih]; omega

/-- `isSome` of an `Option` alternative. -/
theorem orElse_isSome {α : Type} (a b : Option α) :
    (a <|> b).isSome = (a.isSome || b.isSome) := by
  cases a <;> rfl

/-- `isSome` through `Option.map`. -/
theorem isSome_map' {α β : Type} (f : α → β) (o : Option α) :
    (o.map f).isSome = o.isSome := by
  cases o <;> rfl

/-- Backtracking search is complete, so a match found on `s` (with any
sufficient step budget) is still found on `s ++ t` (with any sufficient
step budget): appending input only adds alternatives. -/
theorem mSeq_isSome_append (ci : Bool) :
    ∀ f g (ps : List REx) (s t : List Char) (nl : Bool)
      (acc : Option (Nat × List Char)) (caps : Caps),
      s.length + reListSize ps < f →
      (s ++ t).length + reListSize ps < g →
      (mSeq ci f ps s nl acc caps).isSome = true →
      (mSeq ci g ps (s ++ t) nl acc caps).isSome = true := by
  intro f
  induction f with
  | zero => intro g ps s t nl acc caps hf _ _; omega
  | succ f ih =>
    intro g ps s t nl acc caps hf hg hm
    cases g with
    | zero => omega
    | succ g =>
      cases ps with
      | nil => simp [mSeq]
      | cons p ps =>
        cases p with
        | lit c =>
          cases s with
          | nil => simp [mSeq] at hm
          | cons x xs =>
            simp only [List.cons_append, mSeq] at hm ⊢
            by_cases hx : chEq ci x c = true
            · rw [if_pos hx] at hm ⊢
              rw [isSome_map'] at hm ⊢
              refine ih g ps xs t _ _ _ ?_ ?_ hm
              · simp only [List.length_cons, reListSize_cons, reSize_lit] at hf ⊢; omega
              · simp only [List.length_cons, List.length_append, reListSize_cons,
                  reSize_lit] at hg ⊢
                omega
            · rw [if_neg hx] at hm; simp at hm
        | cls pos cs =>
          cases s with
          | nil => simp [mSeq] at hm
          | cons x xs =>
            simp only [List.cons_append, mSeq] at hm ⊢
            by_cases hx : memCls ci pos cs x = true
            · rw [if_pos hx] at hm ⊢
              rw [isSome_map'] at hm ⊢
              refine ih g ps xs t _ _ _ ?_ ?_ hm
              · simp only [List.length_cons, reListSize_cons, reSize_cls] at hf ⊢; omega
              · simp only [List.length_cons, List.length_append, reListSize_cons,
                  reSize_cls] at hg ⊢
                omega
            · rw [if_neg hx] at hm; simp at hm
        | starCls pos cs =>
          cases s with
          | nil =>
            simp only [List.nil_append] at hg ⊢
            simp only [mSeq] at hm ⊢
            rw [orElse_isSome] at hm ⊢
            rcases Bool.or_eq_true_iff.mp hm with h1 | h2
            · simp at h1
            · refine Bool.or_eq_true_iff.mpr (Or.inr ?_)
              have := ih g ps [] t nl acc caps ?_ ?_ h2
              · simpa using this
              · simp only [reListSize_cons, reSize_starCls, List.length_nil] at hf ⊢; omega
              · simp only [reListSize_cons, reSize_starCls, List.nil_append,
                  List.length_nil] at hg ⊢
                omega
          | cons x xs =>
            simp only [List.cons_append]
            simp only [mSeq] at hm ⊢
            rw [orElse_isSome] at hm ⊢
            rcases Bool.or_eq_true_iff.mp hm with h1 | h2
            · by_cases hx : memCls ci pos cs x = true
              · rw [if_pos hx] at h1
                rw [isSome_map'] at h1
                refine Bool.or_eq_true_iff.mpr (Or.inl ?_)
                rw [if_pos hx, isSome_map']
                refine ih g (.starCls pos cs :: ps) xs t _ _ _ ?_ ?_ h1
                · simp only [List.length_cons, reListSize_cons, reSize_starCls] at hf ⊢
                  omega
                · simp only [List.length_cons, List.length_append, reListSize_cons,
                    reSize_starCls] at hg ⊢
                  omega
              · rw [if_neg hx] at h1; simp at h1
            · refine Bool.or_eq_true_iff.mpr (Or.inr ?_)
              refine ih g ps (x :: xs) t _ _ _ ?_ ?_ h2
              · simp only [reListSize_cons, reSize_starCls] at hf ⊢; omega
              · simp only [List.length_append, reListSize_cons, reSize_starCls] at hg ⊢
                omega
        | repCls pos cs lo hi =>
          cases s with
          | nil =>
            simp only [List.nil_append] at hg ⊢
            simp only [mSeq] at hm ⊢
            by_cases hhi : (hi == 0) = true
            · rw [if_pos hhi] at hm ⊢
              by_cases hlo : (lo == 0) = true
              · rw [if_pos hlo] at hm ⊢
                have := ih g ps [] t nl acc caps ?_ ?_ hm
                · simpa using this
                · simp only [reListSize_cons, reSize_repCls, List.length_nil] at hf ⊢
                  omega
                · simp only [reListSize_cons, reSize_repCls, List.length_nil,
                    List.nil_append] at hg ⊢
                  omega
              · rw [if_neg hlo] at hm; simp at hm
            · rw [if_neg hhi] at hm ⊢
              rw [orElse_isSome] at hm ⊢
              rcases Bool.or_eq_true_iff.mp hm with h1 | h2
              · simp at h1
              · by_cases hlo : (lo == 0) = true
                · rw [if_pos hlo] at h2
                  refine Bool.or_eq_true_iff.mpr (Or.inr ?_)
                  rw [if_pos hlo]
                  have := ih g ps [] t nl acc caps ?_ ?_ h2
                  · simpa using this
                  · simp only [reListSize_cons, reSize_repCls, List.length_nil] at hf ⊢
                    omega
                  · simp only [reListSize_cons, reSize_repCls, List.length_nil,
                      List.nil_append] at hg ⊢
                    omega
                · rw [if_neg hlo] at h2; simp at h2
          | cons x xs =>
            simp only [List.cons_append] at hg ⊢
            simp only [mSeq] at hm ⊢
            by_cases hhi : (hi == 0) = true
            · rw [if_pos hhi] at hm ⊢
              by_cases hlo : (lo == 0) = true
              · rw [if_pos hlo] at hm ⊢
                refine ih g ps (x :: xs) t _ _ _ ?_ ?_ hm
                · simp only [reListSize_cons, reSize_repCls] at hf ⊢; omega
                · simp only [List.length_cons, List.length_append, reListSize_cons,
                    reSize_repCls] at hg ⊢
                  omega
              · rw [if_neg hlo] at hm; simp at hm
            · rw [if_neg hhi] at hm ⊢
              rw [orElse_isSome] at hm ⊢
              rcases Bool.or_eq_true_iff.mp hm with h1 | h2
              · by_cases hx : memCls ci pos cs x = true
                · rw [if_pos hx] at h1
                  rw [isSome_map'] at h1
                  refine Bool.or_eq_true_iff.mpr (Or.inl ?_)
                  rw [if_pos hx, isSome_map']
                  refine ih g (.repCls pos cs (lo - 1) (hi - 1) :: ps) xs t _ _ _ ?_ ?_ h1
                  · simp only [List.length_cons, reListSize_cons, reSize_repCls] at hf ⊢
                    omega
                  · simp only [List.length_cons, List.length_append, reListSize_cons,
                      reSize_repCls] at hg ⊢
                    omega
                · rw [if_neg hx] at h1; simp at h1
              · by_cases hlo : (lo == 0) = true
                · rw [if_pos hlo] at h2
                  refine Bool.or_eq_true_iff.mpr (Or.inr ?_)
                  rw [if_pos hlo]
                  refine ih g ps (x :: xs) t _ _ _ ?_ ?_ h2
                  · simp only [reListSize_cons, reSize_repCls] at hf ⊢; omega
                  · simp only [List.length_cons, List.length_append, reListSize_cons,
                      reSize_repCls] at hg ⊢
                    omega
                · rw [if_neg hlo] at h2; simp at h2
        | alt2 a b =>
          simp only [mSeq] at hm ⊢
          rw [orElse_isSome] at hm ⊢
          rcases Bool.or_eq_true_iff.mp hm with h1 | h1
          · refine Bool.or_eq_true_iff.mpr (Or.inl ?_)
            refine ih g (a ++ ps) s t _ _ _ ?_ ?_ h1
            · rw [reListSize_append]
              simp only [reListSize_cons, reSize_alt2] at hf ⊢
              omega
            · rw [reListSize_append]
              simp only [List.length_append, reListSize_cons, reSize_alt2] at hg ⊢
              omega
          · refine Bool.or_eq_true_iff.mpr (Or.inr ?_)
            refine ih g (b ++ ps) s t _ _ _ ?_ ?_ h1
            · rw [reListSize_append]
              simp only [reListSize_cons, reSize_alt2] at hf ⊢
              omega
            · rw [reListSize_append]
              simp only [List.length_append, reListSize_cons, reSize_alt2] at hg ⊢
              omega
        | optSeq a =>
          simp only [mSeq] at hm ⊢
          rw [orElse_isSome] at hm ⊢
          rcases Bool.or_eq_true_iff.mp hm with h1 | h1
          · refine Bool.or_eq_true_iff.mpr (Or.inl ?_)
            refine ih g (a ++ ps) s t _ _ _ ?_ ?_ h1
            · rw [reListSize_append]
              simp only [reListSize_cons, reSize_optSeq] at hf ⊢
              omega
            · rw [reListSize_append]
              simp only [List.length_append, reListSize_cons, reSize_optSeq] at hg ⊢
              omega
          · refine Bool.or_eq_true_iff.mpr (Or.inr ?_)
            refine ih g ps s t _ _ _ ?_ ?_ h1
            · simp only [reListSize_cons, reSize_optSeq] at hf ⊢; omega
            · simp only [List.length_append, reListSize_cons, reSize_optSeq] at hg ⊢
              omega
        | capStart i =>
          simp only [mSeq] at hm ⊢
          refine ih g ps s t _ _ _ ?_ ?_ hm
          · simp only [reListSize_cons, reSize_capStart] at hf ⊢; omega
          · simp only [List.length_append, reListSize_cons, reSize_capStart] at hg ⊢
            omega
        | capEnd =>
          simp only [mSeq] at hm ⊢
          cases acc with
          | some pr =>
            obtain ⟨i, l⟩ := pr
            refine ih g ps s t _ _ _ ?_ ?_ hm
            · simp only [reListSize_cons, reSize_capEnd] at hf ⊢; omega
            · simp only [List.length_append, reListSize_cons, reSize_capEnd] at hg ⊢
              omega
          | none =>
            refine ih g ps s t _ _ _ ?_ ?_ hm
            · simp only [reListSize_cons, reSize_capEnd] at hf ⊢; omega
            · simp only [List.length_append, reListSize_cons, reSize_capEnd] at hg ⊢
              omega
        | bol =>
          simp only [mSeq] at hm ⊢
          by_cases hnl : nl = true
          · rw [if_pos hnl] at hm ⊢
            refine ih g ps s t _ _ _ ?_ ?_ hm
            · simp only [reListSize_cons, reSize_bol] at hf ⊢; omega
            · simp only [List.length_append, reListSize_cons, reSize_bol] at hg ⊢
              omega
          · rw [if_neg hnl] at hm; simp at hm

/-- A match at the current position makes `research` succeed. -/
theorem research_of_here (ci : Bool) (ps : List REx) (s : List Char) (nl : Bool)
    (h : (reRun ci ps s nl).isSome = true) : research ci ps s nl = true := by
  cases s with
  | nil => simpa [research] using h
  | cons x xs => simp [research, h]

/-- `re.search` success on a suffix is preserved by any prefix. -/
theorem research_append (ci : Bool) (ps : List REx) (rest : List Char)
    (h : ∀ nl', research ci ps rest nl' = true) :
    ∀ pre nl, research ci ps (pre ++ rest) nl = true := by
  intro pre
  induction pre with
  | nil => intro nl; exact h nl
  | cons x xs ih =>
    intro nl
    show research ci ps (x :: (xs ++ rest)) nl = true
    unfold research
    rw [ih (x == '\n')]
    simp

/-- The `gpt[\s\-]*5\.1[\s\-]*pro` rule matches at the start of any
input beginning with the literal characters `gpt-5.1 pro`. -/
theorem gpt51pro_matches (post : List Char) (nl : Bool) :
    (reRun true gpt51pro_pattern (("gpt-5.1 pro").toList ++ post) nl).isSome = true := by
  have hconc : (mSeq true 60 gpt51pro_pattern ("gpt-5.1 pro").toList nl
      none (none, none)).isSome = true := by
    cases nl <;> decide
  unfold reRun
  refine mSeq_isSome_append true 60 _ gpt51pro_pattern _ post nl none (none, none) ?_ ?_ hconc
  · decide
  · omega

/-- Any text containing `gpt-5.1 pro` is found by the
`gpt[\s\-]*5\.1[\s\-]*pro` rule. -/
theorem reSearch_gpt51pro (s : String) (pre post : List Char)
    (hsplit : s.toList = pre ++ ("gpt-5.1 pro").toList ++ post) :
    reSearch true gpt51pro_pattern s = true := by
  unfold reSearch
  rw [hsplit, List.append_assoc]
  exact research_append true gpt51pro_pattern _
    (fun nl' => research_of_here _ _ _ _ (gpt51pro_matches post nl')) pre true

/-- `List.find?` either fails everywhere or returns the first element
satisfying the predicate. -/
theorem find?_split {α : Type} (p : α → Bool) :
    ∀ l : List α,
      (l.find? p = none ∧ ∀ a ∈ l, p a = false) ∨
      ∃ l₁ a l₂, l = l₁ ++ a :: l₂ ∧ (∀ b ∈ l₁, p b = false) ∧ p a = true ∧
        l.find? p = some a := by
  intro l
  induction l with
  | nil => exact Or.inl ⟨rfl, by simp⟩
  | cons x l ih =>
    by_cases hx : p x = true
    · exact Or.inr ⟨[], x, l, rfl, by simp, hx, by simp [List.find?_cons, hx]⟩
    · have hx' : p x = false := by simpa using hx
      rcases ih with ⟨hnone, hall⟩ | ⟨l₁, a, l₂, rfl, hl₁, hpa, hfind⟩
      · refine Or.inl ⟨by simp [List.find?_cons, hx', hnone], ?_⟩
        intro b hb
        rcases List.mem_cons.mp hb with rfl | hb'
        · exact hx'
        · exact hall b hb'
      · refine Or.inr ⟨x :: l₁, a, l₂, rfl, ?_, hpa, by simp [List.find?_cons, hx', hfind]⟩
        intro b hb
        rcases List.mem_cons.mp hb with rfl | hb'
        · exact hx'
        · exact hl₁ b hb'

/-- C2 (amended): `extract_model` evaluates the fixed ordered pattern
list top-to-bottom over `f"{title} {content}"` and returns the label of
the first matching pattern (in list order, not text position), or
`"Unknown"` when none matches.  For any text containing the substring
`gpt-5.1 pro` the result is never `"GPT 5"` (that pattern sits after the
`gpt-5.1 pro` rule), and it is exactly `"GPT 5.1 Pro"` whenever no
earlier rule — the four ChatGPT-5.1 rules — matches; a text such as
`chatgpt-5.1 pro` does match an earlier rule, which is why the original
unconditional claim fails. -/
theorem extract_model_precedence :
    (∀ title content,
      (extract_model title content = "Unknown" ∧
        ∀ pr ∈ model_patterns, reSearch true pr.1 (title ++ " " ++ content) = false) ∨
      (∃ l₁ pr l₂, model_patterns = l₁ ++ pr :: l₂ ∧
        (∀ q ∈ l₁, reSearch true q.1 (title ++ " " ++ content) = false) ∧
        reSearch true pr.1 (title ++ " " ++ content) = true ∧
        extract_model title content = pr.2)) ∧
    (∀ title content pre post,
      (title ++ " " ++ content).toList = pre ++ ("gpt-5.1 pro").toList ++ post →
      extract_model title content ≠ "GPT 5" ∧
      ((∀ q ∈ model_patterns.take 4, reSearch true q.1 (title ++ " " ++ content) = false) →
        extract_model title content = "GPT 5.1 Pro")) := by
  constructor
  · intro title content
    rcases find?_split (fun pr => reSearch true pr.1 (title ++ " " ++ content))
        model_patterns with ⟨hnone, hall⟩ | ⟨l₁, pr, l₂, hsp, hl₁, hpr, hfind⟩
    · exact Or.inl ⟨by simp [extract_model, hnone], fun pr hm => hall pr hm⟩
    · exact Or.inr ⟨l₁, pr, l₂, hsp, fun q hq => hl₁ q hq, hpr,
        by simp [extract_model, hfind]⟩
  · intro title content pre post hsplit
    have hp4 : reSearch true gpt51pro_pattern (title ++ " " ++ content) = true :=
      reSearch_gpt51pro _ pre post hsplit
    have hp4' : reSearch true (lits "gpt" ++ [sd] ++ lits "5.1" ++ [sd] ++ lits "pro")
        (title ++ " " ++ content) = true := hp4
    have htake : model_patterns.take 4 =
      [(lits "chatgpt" ++ [sd] ++ lits "5.1" ++ [sd] ++ lits "pro",
        "ChatGPT 5.1 Pro"),
       (lits "chatgpt" ++ [sd] ++ lits "5.1" ++ [sd, REx.optSeq (lits "extended" ++ [sd])] ++ lits "thinking",
        "ChatGPT 5.1 Thinking"),
       (lits "chatgpt" ++ [sd] ++ lits "5.1" ++ [sd] ++ lits "standard",
        "ChatGPT 5.1"),
       (lits "chatgpt" ++ [sd] ++ lits "5.1",
        "ChatGPT 5.1")] := rfl
    by_cases h0 : reSearch true
        (lits "chatgpt" ++ [sd] ++ lits "5.1" ++ [sd] ++ lits "pro")
        (title ++ " " ++ content) = true
    · have hfind : model_patterns.find?
          (fun pr => reSearch true pr.1 (title ++ " " ++ content)) =
          some (lits "chatgpt" ++ [sd] ++ lits "5.1" ++ [sd] ++ lits "pro",
            "ChatGPT 5.1 Pro") := by
        simp only [model_patterns, List.find?, h0]
      have hres : extract_model title content = "ChatGPT 5.1 Pro" := by
        simp only [extract_model]
        rw [hfind]
      refine ⟨by rw [hres]; decide, ?_⟩
      intro hno
      have hf : reSearch true
          (lits "chatgpt" ++ [sd] ++ lits "5.1" ++ [sd] ++ lits "pro")
          (title ++ " " ++ content) = false := by
        simpa using hno (lits "chatgpt" ++ [sd] ++ lits "5.1" ++ [sd] ++ lits "pro",
          "ChatGPT 5.1 Pro") (by rw [htake]; simp)
      rw [hf] at h0
      exact absurd h0 (by simp)
    have hb0 : reSearch true
        (lits "chatgpt" ++ [sd] ++ lits "5.1" ++ [sd] ++ lits "pro")
        (title ++ " " ++ content) = false := by
      simpa using h0
    by_cases h1 : reSearch true
        (lits "chatgpt" ++ [sd] ++ lits "5.1" ++ [sd, REx.optSeq (lits "extended" ++ [sd])] ++ lits "thinking")
        (title ++ " " ++ content) = true
    · have hfind : model_patterns.find?
          (fun pr => reSearch true pr.1 (title ++ " " ++ content)) =
          some (lits "chatgpt" ++ [sd] ++ lits "5.1" ++ [sd, REx.optSeq (lits "extended" ++ [sd])] ++ lits "thinking",
            "ChatGPT 5.1 Thinking") := by
        simp only [model_patterns, List.find?, hb0, h1]
      have hres : extract_model title content = "ChatGPT 5.1 Thinking" := by
        simp only [extract_model]
        rw [hfind]
      refine ⟨by rw [hres]; decide, ?_⟩
      intro hno
      have hf : reSearch true
          (lits "chatgpt" ++ [sd] ++ lits "5.1" ++ [sd, REx.optSeq (lits "extended" ++ [sd])] ++ lits "thinking")
          (title ++ " " ++ content) = false := by
        simpa using hno (lits "chatgpt" ++ [sd] ++ lits "5.1" ++ [sd, REx.optSeq (lits "extended" ++ [sd])] ++ lits "thinking",
          "ChatGPT 5.1 Thinking") (by rw [htake]; simp)
      rw [hf] at h1
      exact absurd h1 (by simp)
    have hb1 : reSearch true
        (lits "chatgpt" ++ [sd] ++ lits "5.1" ++ [sd, REx.optSeq (lits "extended" ++ [sd])] ++ lits "thinking")
        (title ++ " " ++ content) = false := by
      simpa using h1
    by_cases h2 : reSearch true
        (lits "chatgpt" ++ [sd] ++ lits "5.1" ++ [sd] ++ lits "standard")
        (title ++ " " ++ content) = true
    · have hfind : model_patterns.find?
          (fun pr => reSearch true pr.1 (title ++ " " ++ content)) =
          some (lits "chatgpt" ++ [sd] ++ lits "5.1" ++ [sd] ++ lits "standard",
            "ChatGPT 5.1") := by
        simp only [model_patterns, List.find?, hb0, hb1, h2]
      have hres : extract_model title content = "ChatGPT 5.1" := by
        simp only [extract_model]
        rw [hfind]
      refine ⟨by rw [hres]; decide, ?_⟩
      intro hno
      have hf : reSearch true
          (lits "chatgpt" ++ [sd] ++ lits "5.1" ++ [sd] ++ lits "standard")
          (title ++ " " ++ content) = false := by
        simpa using hno (lits "chatgpt" ++ [sd] ++ lits "5.1" ++ [sd] ++ lits "standard",
          "ChatGPT 5.1") (by rw [htake]; simp)
      rw [hf] at h2
      exact absurd h2 (by simp)
    have hb2 : reSearch true
        (lits "chatgpt" ++ [sd] ++ lits "5.1" ++ [sd] ++ lits "standard")
        (title ++ " " ++ content) = false := by
      simpa using h2
    by_cases h3 : reSearch true
        (lits "chatgpt" ++ [sd] ++ lits "5.1")
        (title ++ " " ++ content) = true
    · have hfind : model_patterns.find?
          (fun pr => reSearch true pr.1 (title ++ " " ++ content)) =
          some (lits "chatgpt" ++ [sd] ++ lits "5.1",
            "ChatGPT 5.1") := by
        simp only [model_patterns, List.find?, hb0, hb1, hb2, h3]
      have hres : extract_model title content = "ChatGPT 5.1" := by
        simp only [extract_model]
        rw [hfind]
      refine ⟨by rw [hres]; decide, ?_⟩
      intro hno
      have hf : reSearch true
          (lits "chatgpt" ++ [sd] ++ lits "5.1")
          (title ++ " " ++ content) = false := by
        simpa using hno (lits "chatgpt" ++ [sd] ++ lits "5.1",
          "ChatGPT 5.1") (by rw [htake]; simp)
      rw [hf] at h3
      exact absurd h3 (by simp)
    have hb3 : reSearch true
        (lits "chatgpt" ++ [sd] ++ lits "5.1")
        (title ++ " " ++ content) = false := by
      simpa using h3
    have hfind : model_patterns.find?
        (fun pr => reSearch true pr.1 (title ++ " " ++ content)) =
        some (lits "gpt" ++ [sd] ++ lits "5.1" ++ [sd] ++ lits "pro", "GPT 5.1 Pro") := by
      simp only [model_patterns, List.find?, hb0, hb1, hb2, hb3, hp4']
    have hres : extract_model title content = "GPT 5.1 Pro" := by
      simp only [extract_model]
      rw [hfind]
    exact ⟨by rw [hres]; decide, fun _ => hres⟩

/-- Counterexample for C2: the text `chatgpt-5.1 pro` contains both
`gpt-5.1 pro` and `gpt-5` as substrings, yet `extract_model` returns
`"ChatGPT 5.1 Pro"` (the earlier, more specific rule), not
`"GPT 5.1 Pro"`. -/
theorem extract_model_counterexample :
    (∃ pre post, (("" : String) ++ " " ++ "chatgpt-5.1 pro").toList =
      pre ++ ("gpt-5.1 pro").toList ++ post) ∧
    (∃ pre post, (("" : String) ++ " " ++ "chatgpt-5.1 pro").toList =
      pre ++ ("gpt-5").toList ++ post) ∧
    extract_model "" "chatgpt-5.1 pro" ≠ "GPT 5.1 Pro" ∧
    extract_model "" "chatgpt-5.1 pro" = "ChatGPT 5.1 Pro" := by
  refine ⟨⟨(" chat").toList, [], by decide⟩,
    ⟨(" chat").toList, (".1 pro").toList, by decide⟩, ?_, ?_⟩
  · decide
  · decide

/-- Witness for C2: on a text containing `gpt-5.1 pro` where none of
the four ChatGPT-5.1 rules matches, the precedence theorem yields
`"GPT 5.1 Pro"`. -/
theorem extract_model_precedence_witness :
    extract_model "" "results with gpt-5.1 pro today" = "GPT 5.1 Pro" :=
  (extract_model_precedence.2 "" "results with gpt-5.1 pro today"
    (" results with ").toList (" today").toList (by decide)).2 (by decide)
